import Mathlib

/-!
Verification of the crawl-and-persist pipeline of the LLM-stock-news-analysis
repository. Each definition is a shallow embedding of the corresponding Python
function; storage collections are lists of documents, MongoDB query/update
semantics are made explicit, and the HTTP layer is an oracle assigning an
outcome to each attempt.
-/

namespace StockNews

/-! ## Maintenance sweep (src/db_maintenance.py, clean_old_articles)

A document is modelled by its optional `date` field (MongoDB `$lt` on a field
only matches documents where the field is present) plus an identifier standing
for all remaining fields. -/

structure MDoc where
  docId : Nat
  date : Option Int
deriving DecidableEq, Repr

/-- The query `{"date": {"$lt": cutoff_date}}`: matches documents whose `date`
field exists and is strictly below the cutoff. -/
def matchesOldQuery (cutoff : Int) (d : MDoc) : Bool :=
  match d.date with
  | some t => decide (t < cutoff)
  | none => false

/-- One iteration of the per-collection loop of `clean_old_articles`:
`count_documents(query)` then, when not a dry run, `delete_many(query)`.
Returns the reported count together with the collection afterwards. -/
def cleanCollection (cutoff : Int) (dryRun : Bool) (coll : List MDoc) :
    Nat × List MDoc :=
  let countToDelete := (coll.filter (matchesOldQuery cutoff)).length
  if countToDelete = 0 then
    (0, coll)
  else if dryRun then
    (countToDelete, coll)
  else
    (countToDelete, coll.filter (fun d => ¬ matchesOldQuery cutoff d))

/-- `clean_old_articles`: iterate over the configured collections, accumulate
`total_deleted_count`, and return the final state of every collection. -/
def clean_old_articles (cutoff : Int) (dryRun : Bool) :
    List (List MDoc) → Nat × List (List MDoc)
  | [] => (0, [])
  | coll :: rest =>
    let (n, coll') := cleanCollection cutoff dryRun coll
    let (total, rest') := clean_old_articles cutoff dryRun rest
    (n + total, coll' :: rest')

/-- Total number of documents matching the age query across all collections. -/
def totalMatchingOld (cutoff : Int) (colls : List (List MDoc)) : Nat :=
  (colls.map (fun c => (c.filter (matchesOldQuery cutoff)).length)).sum

/-! ## Dedup-and-persist (src/crawlers/base_crawler.py, save_articles)

An article as assembled by `BaseCrawler.run`; a stored document carries the
article fields written by the crawler plus the analysis fields a later stage
may have attached (untouched by the crawler's `$set`). -/

structure Article where
  url : String
  title : String
  content : String
  source_page_url : Option String
  fetched_at : Int
  published_date : Option Int
  analyzed : Bool
deriving DecidableEq, Repr

structure StoredDoc where
  fields : Article
  analysisExtra : Option Nat
deriving DecidableEq, Repr

/-- `UpdateOne({"url": a.url}, {"$set": a}, upsert=True)`: MongoDB updates the
first document matching the filter, setting every field of the article; when
no document matches, it inserts a new one built from filter and update. -/
def upsertOne (coll : List StoredDoc) (a : Article) : List StoredDoc :=
  match coll with
  | [] => [⟨a, none⟩]
  | d :: ds =>
    if d.fields.url = a.url then ⟨a, d.analysisExtra⟩ :: ds
    else d :: upsertOne ds a

/-- `save_articles`: returns the collection afterwards (kept as `Option`, since
the handle may be uninitialized) together with the number of write operations
submitted to the store. An ordered `bulk_write` of `UpdateOne` operations
executes them sequentially, hence the fold. -/
def save_articles (coll : Option (List StoredDoc)) (articles : List Article) :
    Option (List StoredDoc) × Nat :=
  match coll with
  | none => (none, 0)
  | some c =>
    if articles.isEmpty then (some c, 0)
    else (some (articles.foldl upsertOne c), articles.length)

/-- Number of stored documents whose `url` field equals `u`. -/
def countUrl (coll : List StoredDoc) (u : String) : Nat :=
  (coll.filter (fun d => d.fields.url = u)).length

/-! Basic lemmas about the upsert. -/

theorem countUrl_cons (d : StoredDoc) (ds : List StoredDoc) (u : String) :
    countUrl (d :: ds) u =
      (if d.fields.url = u then 1 else 0) + countUrl ds u := by
  by_cases h : d.fields.url = u
  · simp [countUrl, List.filter, h]; omega
  · simp [countUrl, List.filter, h]

theorem countUrl_upsertOne_self (coll : List StoredDoc) (a : Article) :
    countUrl (upsertOne coll a) a.url =
      if countUrl coll a.url = 0 then 1 else countUrl coll a.url := by
  induction coll with
  | nil => simp [upsertOne, countUrl]
  | cons d ds ih =>
    by_cases h : d.fields.url = a.url
    · simp [upsertOne, h, countUrl_cons]
    · simp [upsertOne, h, countUrl_cons, ih]

theorem mem_upsertOne_fields (coll : List StoredDoc) (a : Article)
    (hcount : countUrl coll a.url ≤ 1) :
    ∀ d ∈ upsertOne coll a, d.fields.url = a.url → d.fields = a := by
  induction coll with
  | nil =>
    intro d hd _
    simp [upsertOne] at hd
    simp [hd]
  | cons d₀ ds ih =>
    intro d hd hurl
    by_cases h : d₀.fields.url = a.url
    · simp [upsertOne, h] at hd
      rcases hd with hd | hd
      · simp [hd]
      · exfalso
        rw [countUrl_cons, if_pos h] at hcount
        have hz : countUrl ds a.url = 0 := by omega
        have hmem : d ∈ ds.filter (fun x => decide (x.fields.url = a.url)) := by
          simp [List.mem_filter, hd, hurl]
        have hpos : 0 < countUrl ds a.url :=
          List.length_pos.mpr (List.ne_nil_of_mem hmem)
        omega
    · simp [upsertOne, h] at hd
      rcases hd with hd | hd
      · exfalso; exact h (hd ▸ hurl)
      · have hc : countUrl ds a.url ≤ 1 := by
          rw [countUrl_cons, if_neg h] at hcount; omega
        exact ih hc d hd hurl

/-! ## Fetch-with-retry (src/crawlers/base_crawler.py, _make_request)

The HTTP layer is an oracle assigning an outcome to each attempt (0-based):
either a successful response (`raise_for_status` passes and a parsed page is
returned), a timeout, an HTTP error status raised by `raise_for_status`,
another request error, or an unexpected exception. -/

inductive FetchOutcome where
  | success
  | timeout
  | httpStatus (code : Nat)
  | requestError
  | unexpected
deriving DecidableEq, Repr

/-- Result of `_make_request`: whether a parsed page was returned, how many GET
requests were performed, and how many `asyncio.sleep(self.retry_delay)` calls
elapsed. -/
structure ReqResult where
  ok : Bool
  attempts : Nat
  sleeps : Nat
deriving DecidableEq, Repr

/-- The status codes treated as terminal: `[403, 404, 401, 514]`. -/
def terminalCodes : List Nat := [403, 404, 401, 514]

/-- The `for attempt in range(retries)` loop body of `_make_request`. On
success the page is returned at once; on a timeout, a non-terminal HTTP error,
a request error, or an unexpected exception the code sleeps for `retry_delay`
and moves to the next attempt; on a terminal HTTP status it sleeps once more
and breaks out of the loop. Falling off the loop returns `None`. -/
def makeRequestGo (oracle : Nat → FetchOutcome) :
    Nat → Nat → Nat → ReqResult
  | attempt, 0, sleeps => ⟨false, attempt, sleeps⟩
  | attempt, remaining + 1, sleeps =>
    match oracle attempt with
    | .success => ⟨true, attempt + 1, sleeps⟩
    | .timeout => makeRequestGo oracle (attempt + 1) remaining (sleeps + 1)
    | .httpStatus c =>
      if c ∈ terminalCodes then ⟨false, attempt + 1, sleeps + 1⟩
      else makeRequestGo oracle (attempt + 1) remaining (sleeps + 1)
    | .requestError => makeRequestGo oracle (attempt + 1) remaining (sleeps + 1)
    | .unexpected => makeRequestGo oracle (attempt + 1) remaining (sleeps + 1)

/-- `_make_request(url, retries)` under the outcome oracle for that url. -/
def make_request (oracle : Nat → FetchOutcome) (retries : Nat) : ReqResult :=
  makeRequestGo oracle 0 retries 0

theorem makeRequestGo_all_timeout (oracle : Nat → FetchOutcome)
    (h : ∀ i, oracle i = .timeout) :
    ∀ remaining attempt sleeps, makeRequestGo oracle attempt remaining sleeps =
      ⟨false, attempt + remaining, sleeps + remaining⟩ := by
  intro remaining
  induction remaining with
  | zero => intro attempt sleeps; simp [makeRequestGo]
  | succ n ih =>
    intro attempt sleeps
    rw [makeRequestGo, h attempt, ih]
    have h1 : attempt + 1 + n = attempt + (n + 1) := by omega
    have h2 : sleeps + 1 + n = sleeps + (n + 1) := by omega
    rw [h1, h2]

/-! ## Crawler run loop (src/crawlers/base_crawler.py, run)

`run` walks the fetched news list, skips items without a url, skips urls
already present in the store, skips urls already processed in this batch,
fetches content for the rest, and collects the articles to save. The store
existence check and the content fetch are modelled as functions of the url;
the store is not written to until `save_articles` runs at the end, so the
existence predicate is constant during the loop, exactly as in the code. -/

structure NewsItem where
  itemUrl : Option String
  title : String
  source_page_url : Option String
  published_date : Option Int
deriving DecidableEq, Repr

/-- The article dict built in `run` for an item whose content fetch succeeded. -/
def mkArticle (u : String) (item : NewsItem) (content : String)
    (fetchedAt : Int) : Article :=
  { url := u
    title := item.title
    content := content
    source_page_url := item.source_page_url
    fetched_at := fetchedAt
    published_date := item.published_date
    analyzed := false }

/-- The body of `run`'s loop: returns the list of urls whose content was
fetched (in order) and the batch of articles accumulated for `save_articles`.
`processed` is the `processed_urls` set. -/
def runLoop (existsInDb : String → Bool) (fetchContent : String → Option String)
    (fetchedAt : Int) : List NewsItem → List String → List String × List Article
  | [], _ => ([], [])
  | item :: rest, processed =>
    match item.itemUrl with
    | none => runLoop existsInDb fetchContent fetchedAt rest processed
    | some u =>
      if existsInDb u then
        runLoop existsInDb fetchContent fetchedAt rest processed
      else if u ∈ processed then
        runLoop existsInDb fetchContent fetchedAt rest processed
      else
        let r := runLoop existsInDb fetchContent fetchedAt rest (u :: processed)
        match fetchContent u with
        | some content => (u :: r.1, mkArticle u item content fetchedAt :: r.2)
        | none => (u :: r.1, r.2)

/-! ## Analysis results and persistence (src/news_analyzer.py) -/

structure AnalysisDetails where
  importance_score : Nat
  sectors : List String
  sentiment_score : Nat
  analysis_summary : String
deriving DecidableEq, Repr

/-- The default details dict of `extract_analysis_details`. -/
def defaultDetails : AnalysisDetails :=
  { importance_score := 0
    sectors := []
    sentiment_score := 0
    analysis_summary := "" }

/-- One element of the list returned by `analyze_batch`: the result dict may
carry an `error` key (exception path) and may lack `analysis_structured`
(modelled by `none`, in which case `.get` defaults apply). -/
structure AnalysisResult where
  article_id : Nat
  analysis_raw : String
  analysis_structured : Option AnalysisDetails
  errorMsg : Option String
  analyzed_at : Int
deriving DecidableEq, Repr

/-- A stored news document as seen by the analyzer: the `analyzed` field may
be absent (`none`), `fetched_at` likewise; remaining fields abstracted. -/
structure NewsDoc where
  newsId : Nat
  analyzed : Option Bool
  fetched_at : Option Int
  analysis_error : Option String
  analysis_raw : Option String
  analysis_structured : Option AnalysisDetails
  analyzed_at : Option Int
deriving DecidableEq, Repr

/-- The `get_unanalyzed_news` query
`{"analyzed": {"$ne": True}, "fetched_at": {"$gte": cutoff}}`: `$ne` matches
documents where the field is missing or differs from `true`; `$gte` requires
the field to be present and at least the cutoff. -/
def unanalyzedQuery (cutoff : Int) (d : NewsDoc) : Bool :=
  decide (d.analyzed ≠ some true) && (match d.fetched_at with
    | some t => decide (cutoff ≤ t)
    | none => false)

/-- `get_unanalyzed_news`: `find(query).limit(limit)`. -/
def get_unanalyzed_news (cutoff : Int) (limit : Nat) (coll : List NewsDoc) :
    List NewsDoc :=
  ((coll.filter (unanalyzedQuery cutoff)).take limit)

/-- The `$set` applied by `save_analysis` to the matched document. The error
branch is taken when the result has an `error` key and its `analysis_raw` is
the exact placeholder written by `analyze_batch`. -/
def applyAnalysisResult (r : AnalysisResult) (d : NewsDoc) : NewsDoc :=
  if r.errorMsg.isSome ∧ r.analysis_raw = "Analysis failed due to error." then
    { d with
        analysis_error := some (r.errorMsg.getD "Unknown analysis error")
        analyzed := some true
        analyzed_at := some r.analyzed_at }
  else
    { d with
        analysis_raw := some r.analysis_raw
        analysis_structured := r.analysis_structured
        analyzed := some true
        analyzed_at := some r.analyzed_at }

/-- `update_one(filter, ...)`: update the first matching document only. -/
def updateFirst (p : NewsDoc → Bool) (f : NewsDoc → NewsDoc) :
    List NewsDoc → List NewsDoc
  | [] => []
  | d :: ds => if p d then f d :: ds else d :: updateFirst p f ds

/-- `save_analysis`: one `update_one` keyed on `_id` per result, in order. -/
def save_analysis (results : List AnalysisResult) (coll : List NewsDoc) :
    List NewsDoc :=
  results.foldl
    (fun c r => updateFirst (fun d => d.newsId = r.article_id)
      (applyAnalysisResult r) c) coll

/-! ## Alerting (src/news_analyzer.py, check_alerts_and_send_emails) -/

structure AlertThresholds where
  importance_threshold : Nat
  positive_sentiment_threshold : Nat
  negative_sentiment_threshold : Nat
deriving DecidableEq, Repr

/-- The `ALERT_THRESHOLDS` constant of the analyzer entry point. -/
def ALERT_THRESHOLDS : AlertThresholds :=
  { importance_threshold := 7
    positive_sentiment_threshold := 8
    negative_sentiment_threshold := 3 }

/-- The per-result alert test: skip results carrying an `error` key, read the
scores out of `analysis_structured` with `.get` defaults of 0, and require
importance at or above the importance threshold together with sentiment at or
beyond either sentiment threshold. -/
def alertTriggered (th : AlertThresholds) (r : AnalysisResult) : Bool :=
  if r.errorMsg.isSome then false
  else
    let importance := (r.analysis_structured.map (·.importance_score)).getD 0
    let sentiment := (r.analysis_structured.map (·.sentiment_score)).getD 0
    decide (importance ≥ th.importance_threshold) &&
      (decide (sentiment ≥ th.positive_sentiment_threshold) ||
        decide (sentiment ≤ th.negative_sentiment_threshold))

/-- `check_alerts_and_send_emails`, returning the number of emails sent: 0
when the email service is uninitialized, 0 when no result triggers an alert,
otherwise exactly one digest email. -/
def check_alerts_and_send_emails (serviceUp : Bool)
    (results : List AnalysisResult) (th : AlertThresholds) : Nat :=
  if serviceUp = false then 0
  else
    let alerts_to_send := results.filter (alertTriggered th)
    if alerts_to_send.isEmpty then 0 else 1

/-! ## Orchestrator (src/main_crawler.py, run_crawler / main)

Each adapter is summarized by the behavior of its `run` call: either it
completes and hands a batch of articles to `save_articles` on its own
collection, or it raises an unhandled exception. `run_crawler` wraps the call
in try/except/finally: the exception is caught and logged, and `close()` runs
in the `finally` block either way. The adapters share no state (each owns its
collection), so the joint `asyncio.gather` is modelled pointwise. -/

inductive RunBehavior where
  | succeeds (articles : List Article)
  | raises (msg : String)
deriving DecidableEq, Repr

structure AdapterOutcome where
  completed : Bool
  ranOk : Bool
  closed : Bool
deriving DecidableEq, Repr

/-- `run_crawler` on one adapter and its collection. -/
def run_crawler (b : RunBehavior) (coll : List StoredDoc) :
    AdapterOutcome × List StoredDoc :=
  match b with
  | .succeeds articles =>
    let saved := (save_articles (some coll) articles).1.getD coll
    (⟨true, true, true⟩, saved)
  | .raises _ => (⟨true, false, true⟩, coll)

/-- The orchestrator `main`: run every selected adapter, pairing each with its
own collection, and await them all. -/
def orchestrate : List RunBehavior → List (List StoredDoc) →
    List AdapterOutcome × List (List StoredDoc)
  | [], colls => ([], colls)
  | _ :: _, [] => ([], [])
  | b :: bs, coll :: colls =>
    let r := run_crawler b coll
    let rest := orchestrate bs colls
    (r.1 :: rest.1, r.2 :: rest.2)

/-! ## Helper lemmas for the claim theorems -/

theorem cleanCollection_dry (cutoff : Int) (c : List MDoc) :
    cleanCollection cutoff true c =
      ((c.filter (matchesOldQuery cutoff)).length, c) := by
  unfold cleanCollection
  by_cases h : (c.filter (matchesOldQuery cutoff)).length = 0 <;> simp [h]

theorem cleanCollection_active (cutoff : Int) (c : List MDoc) :
    cleanCollection cutoff false c =
      ((c.filter (matchesOldQuery cutoff)).length,
        c.filter (fun d => ¬ matchesOldQuery cutoff d)) := by
  unfold cleanCollection
  by_cases h : (c.filter (matchesOldQuery cutoff)).length = 0
  · have hall : ∀ d ∈ c, matchesOldQuery cutoff d = false := by
      intro d hd
      have := (List.filter_eq_nil_iff.mp (List.length_eq_zero.mp h)) d hd
      simpa using this
    have hself : c.filter (fun d => !matchesOldQuery cutoff d) = c := by
      apply List.filter_eq_self.mpr
      intro a ha; simp [hall a ha]
    simp [h, hself]
  · simp [h]

/-- C1: for every retention cutoff and state of the collections, the dry-run
sweep reports exactly the number of documents whose `date` field is older
than the cutoff and leaves every collection unchanged, while the non-dry-run
sweep reports the same number and leaves exactly the non-matching documents. -/
theorem clean_old_articles_dry_run_exact (cutoff : Int)
    (colls : List (List MDoc)) :
    (clean_old_articles cutoff true colls).1 = totalMatchingOld cutoff colls ∧
    (clean_old_articles cutoff true colls).2 = colls ∧
    (clean_old_articles cutoff false colls).1 = totalMatchingOld cutoff colls ∧
    (clean_old_articles cutoff false colls).2 =
      colls.map (fun c => c.filter (fun d => ¬ matchesOldQuery cutoff d)) := by
  induction colls with
  | nil => simp [clean_old_articles, totalMatchingOld]
  | cons c cs ih =>
    obtain ⟨ih1, ih2, ih3, ih4⟩ := ih
    refine ⟨?_, ?_, ?_, ?_⟩ <;>
      simp [clean_old_articles, cleanCollection_dry, cleanCollection_active,
        totalMatchingOld, ih1, ih2, ih3, ih4]

/-- C2: persisting article A1 and then article A2 with the same url, via two
`save_articles` calls, leaves exactly one document for that url in the store
and that document's content fields are A2's (last-write-wins upsert; no
duplicate is created), provided the store respects the url-uniqueness
invariant for that url beforehand. -/
theorem save_articles_last_write_wins (store : List StoredDoc) (u : String)
    (A1 A2 : Article) (h1 : A1.url = u) (h2 : A2.url = u)
    (hstore : countUrl store u ≤ 1) :
    ∃ s1 s2 : List StoredDoc,
      save_articles (some store) [A1] = (some s1, 1) ∧
      save_articles (some s1) [A2] = (some s2, 1) ∧
      countUrl s2 u = 1 ∧
      ∀ d ∈ s2, d.fields.url = u → d.fields = A2 := by
  refine ⟨upsertOne store A1, upsertOne (upsertOne store A1) A2, rfl, rfl, ?_, ?_⟩
  · have e1 : countUrl (upsertOne store A1) u = 1 := by
      have := countUrl_upsertOne_self store A1
      rw [h1] at this
      rw [this]
      by_cases h : countUrl store u = 0
      · simp [h]
      · simp [h]; omega
    have := countUrl_upsertOne_self (upsertOne store A1) A2
    rw [h2, e1] at this
    simpa using this
  · have e1 : countUrl (upsertOne store A1) u = 1 := by
      have := countUrl_upsertOne_self store A1
      rw [h1] at this
      rw [this]
      by_cases h : countUrl store u = 0
      · simp [h]
      · simp [h]; omega
    intro d hd hurl
    have hle : countUrl (upsertOne store A1) A2.url ≤ 1 := by rw [h2, e1]
    exact mem_upsertOne_fields (upsertOne store A1) A2 hle d hd (by rw [hurl, h2])

/-- C2 witness: a concrete two-step upsert of two articles sharing a url into
an empty store. -/
theorem save_articles_last_write_wins_witness :
    ∃ s1 s2 : List StoredDoc,
      save_articles (some []) [⟨"http://a", "t1", "c1", none, 0, none, false⟩] =
        (some s1, 1) ∧
      save_articles (some s1) [⟨"http://a", "t2", "c2", none, 1, none, false⟩] =
        (some s2, 1) ∧
      countUrl s2 "http://a" = 1 ∧
      ∀ d ∈ s2, d.fields.url = "http://a" →
        d.fields = ⟨"http://a", "t2", "c2", none, 1, none, false⟩ :=
  save_articles_last_write_wins [] "http://a"
    ⟨"http://a", "t1", "c1", none, 0, none, false⟩
    ⟨"http://a", "t2", "c2", none, 1, none, false⟩ rfl rfl (by decide)

/-- C3 counterexample: with `max_attempts = 3` and an oracle that times out on
every attempt, `_make_request` performs 3 attempts and returns failure, but it
sleeps 3 times rather than the claimed `max_attempts - 1 = 2`: the loop body
sleeps after every timed-out attempt, including the final one. -/
theorem make_request_timeout_counterexample :
    make_request (fun _ => FetchOutcome.timeout) 3 =
      { ok := false, attempts := 3, sleeps := 3 } ∧
    ({ ok := false, attempts := 3, sleeps := 3 } : ReqResult).sleeps ≠ 3 - 1 := by
  exact ⟨rfl, by decide⟩

/-- C3 amended: for every `max_attempts ≥ 1`, an always-timing-out url makes
`_make_request` perform exactly `max_attempts` attempts, return failure, and
incur exactly `max_attempts` delays of `retry_delay` each — one after every
attempt, including the last. -/
theorem make_request_all_timeout (oracle : Nat → FetchOutcome) (retries : Nat)
    (_hr : 1 ≤ retries) (h : ∀ i, oracle i = FetchOutcome.timeout) :
    make_request oracle retries =
      { ok := false, attempts := retries, sleeps := retries } := by
  unfold make_request
  rw [makeRequestGo_all_timeout oracle h retries 0 0]
  simp

/-- C3 amended witness: the all-timeout oracle with `max_attempts = 3`. -/
theorem make_request_all_timeout_witness :
    make_request (fun _ => FetchOutcome.timeout) 3 =
      { ok := false, attempts := 3, sleeps := 3 } :=
  make_request_all_timeout (fun _ => FetchOutcome.timeout) 3 (by decide)
    (fun _ => rfl)

/-- C4: for every `max_attempts ≥ 1`, a first attempt that raises one of the
terminal HTTP statuses (401, 403, 404, 514) makes `_make_request` perform
exactly one attempt, sleep exactly once, and return failure with no further
attempts, regardless of `max_attempts`. -/
theorem make_request_terminal_status (oracle : Nat → FetchOutcome)
    (retries c : Nat) (hr : 1 ≤ retries)
    (h0 : oracle 0 = FetchOutcome.httpStatus c) (hc : c ∈ terminalCodes) :
    make_request oracle retries = { ok := false, attempts := 1, sleeps := 1 } := by
  obtain ⟨r, rfl⟩ : ∃ r, retries = r + 1 := ⟨retries - 1, by omega⟩
  unfold make_request makeRequestGo
  rw [h0]
  simp [hc]

/-- C4 witness: HTTP 404 on the first attempt with `max_attempts = 5`. -/
theorem make_request_terminal_status_witness :
    make_request (fun _ => FetchOutcome.httpStatus 404) 5 =
      { ok := false, attempts := 1, sleeps := 1 } :=
  make_request_terminal_status (fun _ => FetchOutcome.httpStatus 404) 5 404
    (by decide) rfl (by decide)

/-! Concrete data for the C6 claim about failed analyses. -/

def failedDocC6 : NewsDoc :=
  { newsId := 1
    analyzed := some false
    fetched_at := some 100
    analysis_error := none
    analysis_raw := none
    analysis_structured := none
    analyzed_at := none }

def errorResultC6 : AnalysisResult :=
  { article_id := 1
    analysis_raw := "Analysis failed due to error."
    analysis_structured := some defaultDetails
    errorMsg := some "LLM quota exceeded"
    analyzed_at := 200 }

/-- C6 counterexample: a recent article that matched the `get_unanalyzed_news`
query stops matching it after `save_analysis` persists its error result: the
error branch of `save_analysis` sets `analyzed: True`, so the failed article
is not eligible for re-analysis. -/
theorem save_analysis_error_counterexample :
    unanalyzedQuery 0 failedDocC6 = true ∧
    ∀ d ∈ save_analysis [errorResultC6] [failedDocC6],
      unanalyzedQuery 0 d = false := by
  decide

theorem updateFirst_eq_of_first (p : NewsDoc → Bool) (f : NewsDoc → NewsDoc)
    (c1 : List NewsDoc) (d : NewsDoc) (c2 : List NewsDoc)
    (h1 : ∀ d' ∈ c1, p d' = false) (hd : p d = true) :
    updateFirst p f (c1 ++ d :: c2) = c1 ++ f d :: c2 := by
  induction c1 with
  | nil => simp [updateFirst, hd]
  | cons x xs ih =>
    have hx : p x = false := h1 x (by simp)
    simp [updateFirst, hx]
    exact ih (fun d' hd' => h1 d' (by simp [hd']))

/-- C6 amended: when `save_analysis` persists an error result, the first
document matching the result's article id is updated with `analyzed = true`
and an `analysis_error`, and afterwards it no longer satisfies the
`get_unanalyzed_news` selection predicate, for any recency cutoff — a failed
article is permanently skipped, not kept eligible for re-analysis. -/
theorem save_analysis_error_marks_analyzed (r : AnalysisResult) (cutoff : Int)
    (c1 c2 : List NewsDoc) (d : NewsDoc)
    (herr : r.errorMsg.isSome = true)
    (hraw : r.analysis_raw = "Analysis failed due to error.")
    (hid : d.newsId = r.article_id)
    (hfirst : ∀ d' ∈ c1, d'.newsId ≠ r.article_id) :
    save_analysis [r] (c1 ++ d :: c2) = c1 ++ applyAnalysisResult r d :: c2 ∧
    (applyAnalysisResult r d).analyzed = some true ∧
    (applyAnalysisResult r d).analysis_error =
      some (r.errorMsg.getD "Unknown analysis error") ∧
    unanalyzedQuery cutoff (applyAnalysisResult r d) = false := by
  have happ : applyAnalysisResult r d =
      { d with
          analysis_error := some (r.errorMsg.getD "Unknown analysis error")
          analyzed := some true
          analyzed_at := some r.analyzed_at } := by
    unfold applyAnalysisResult
    rw [if_pos ⟨herr, hraw⟩]
  refine ⟨?_, ?_, ?_, ?_⟩
  · unfold save_analysis
    simp only [List.foldl]
    apply updateFirst_eq_of_first
    · intro d' hd'
      simpa using hfirst d' hd'
    · simpa using hid
  · rw [happ]
  · rw [happ]
  · rw [happ]
    simp [unanalyzedQuery]

/-- C6 amended witness: the concrete error result applied to the concrete
recent article. -/
theorem save_analysis_error_marks_analyzed_witness :
    save_analysis [errorResultC6] ([] ++ failedDocC6 :: []) =
      [] ++ applyAnalysisResult errorResultC6 failedDocC6 :: [] ∧
    (applyAnalysisResult errorResultC6 failedDocC6).analyzed = some true ∧
    (applyAnalysisResult errorResultC6 failedDocC6).analysis_error =
      some (errorResultC6.errorMsg.getD "Unknown analysis error") ∧
    unanalyzedQuery 0 (applyAnalysisResult errorResultC6 failedDocC6) = false :=
  save_analysis_error_marks_analyzed errorResultC6 0 [] [] failedDocC6
    rfl rfl rfl (by simp)
/-! Orchestrator lemmas. -/

theorem run_crawler_completed_closed (b : RunBehavior) (c : List StoredDoc) :
    (run_crawler b c).1.completed = true ∧ (run_crawler b c).1.closed = true := by
  cases b <;> simp [run_crawler]

theorem orchestrate_length (bs : List RunBehavior) :
    ∀ colls : List (List StoredDoc), bs.length = colls.length →
      (orchestrate bs colls).1.length = bs.length := by
  induction bs with
  | nil => intro colls _; simp [orchestrate]
  | cons b bs ih =>
    intro colls hlen
    cases colls with
    | nil => simp at hlen
    | cons c cs =>
      simp [orchestrate]
      exact ih cs (by simpa using hlen)

theorem orchestrate_get (bs : List RunBehavior) :
    ∀ (colls : List (List StoredDoc)), bs.length = colls.length → ∀ j : Nat,
      (orchestrate bs colls).1[j]? =
        (bs[j]?.bind fun b => colls[j]?.map fun c => (run_crawler b c).1) ∧
      (orchestrate bs colls).2[j]? =
        (bs[j]?.bind fun b => colls[j]?.map fun c => (run_crawler b c).2) := by
  induction bs with
  | nil =>
    intro colls hlen j
    cases colls with
    | nil => simp [orchestrate]
    | cons c cs => simp at hlen
  | cons b bs ih =>
    intro colls hlen j
    cases colls with
    | nil => simp at hlen
    | cons c cs =>
      cases j with
      | zero => simp [orchestrate]
      | succ j =>
        have := ih cs (by simpa using hlen) j
        simpa [orchestrate] using this

/-- C7: if one adapter raises an unhandled exception during its run, the
orchestrator still completes with one outcome per adapter, every adapter is
closed in its `finally` block, the failing adapter's collection is untouched,
and every successfully-running adapter's articles are persisted through
`save_articles` on its own collection. -/
theorem orchestrate_isolates_failure (bs : List RunBehavior)
    (colls : List (List StoredDoc)) (i : Nat) (msg : String)
    (hlen : bs.length = colls.length)
    (hfail : bs[i]? = some (RunBehavior.raises msg)) :
    (orchestrate bs colls).1.length = bs.length ∧
    (∀ o ∈ (orchestrate bs colls).1, o.completed = true ∧ o.closed = true) ∧
    (orchestrate bs colls).1[i]? = some ⟨true, false, true⟩ ∧
    (orchestrate bs colls).2[i]? = colls[i]? ∧
    (∀ (j : Nat) (arts : List Article),
      bs[j]? = some (RunBehavior.succeeds arts) →
      (orchestrate bs colls).1[j]? = some ⟨true, true, true⟩ ∧
      (orchestrate bs colls).2[j]? =
        colls[j]?.map (fun c => (save_articles (some c) arts).1.getD c)) := by
  refine ⟨orchestrate_length bs colls hlen, ?_, ?_, ?_, ?_⟩
  · intro o ho
    obtain ⟨j, hj⟩ := List.mem_iff_getElem?.mp ho
    have hchar := (orchestrate_get bs colls hlen j).1
    rw [hchar] at hj
    cases hb : bs[j]? with
    | none => rw [hb] at hj; simp at hj
    | some b =>
      cases hcj : colls[j]? with
      | none => rw [hb, hcj] at hj; simp at hj
      | some c =>
        rw [hb, hcj] at hj
        simp at hj
        rw [← hj]
        exact run_crawler_completed_closed b c
  · obtain ⟨hi', _⟩ := List.getElem?_eq_some_iff.mp hfail
    have hi : i < colls.length := by omega
    obtain ⟨c, hc⟩ : ∃ c, colls[i]? = some c :=
      ⟨colls[i], List.getElem?_eq_some_iff.mpr ⟨hi, rfl⟩⟩
    rw [(orchestrate_get bs colls hlen i).1, hfail, hc]
    rfl
  · obtain ⟨hi', _⟩ := List.getElem?_eq_some_iff.mp hfail
    have hi : i < colls.length := by omega
    obtain ⟨c, hc⟩ : ∃ c, colls[i]? = some c :=
      ⟨colls[i], List.getElem?_eq_some_iff.mpr ⟨hi, rfl⟩⟩
    rw [(orchestrate_get bs colls hlen i).2, hfail, hc]
    rfl
  · intro j arts hj
    obtain ⟨hj', _⟩ := List.getElem?_eq_some_iff.mp hj
    have hjlt : j < colls.length := by omega
    obtain ⟨c, hc⟩ : ∃ c, colls[j]? = some c :=
      ⟨colls[j], List.getElem?_eq_some_iff.mpr ⟨hjlt, rfl⟩⟩
    constructor
    · rw [(orchestrate_get bs colls hlen j).1, hj, hc]
      rfl
    · rw [(orchestrate_get bs colls hlen j).2, hj, hc]
      rfl

/-- C7 witness: three adapters where the middle one raises; the other two
persist their batches and all three are closed. -/
theorem orchestrate_isolates_failure_witness :
    (orchestrate
      [RunBehavior.succeeds [⟨"http://a", "t", "c", none, 0, none, false⟩],
        RunBehavior.raises "boom", RunBehavior.succeeds []]
      [[], [], []]).1.length = 3 ∧
    (∀ o ∈ (orchestrate
      [RunBehavior.succeeds [⟨"http://a", "t", "c", none, 0, none, false⟩],
        RunBehavior.raises "boom", RunBehavior.succeeds []]
      [[], [], []]).1, o.completed = true ∧ o.closed = true) ∧
    (orchestrate
      [RunBehavior.succeeds [⟨"http://a", "t", "c", none, 0, none, false⟩],
        RunBehavior.raises "boom", RunBehavior.succeeds []]
      [[], [], []]).1[1]? = some ⟨true, false, true⟩ ∧
    (orchestrate
      [RunBehavior.succeeds [⟨"http://a", "t", "c", none, 0, none, false⟩],
        RunBehavior.raises "boom", RunBehavior.succeeds []]
      [[], [], []]).2[1]? = [([] : List StoredDoc), [], []][1]? ∧
    (∀ (j : Nat) (arts : List Article),
      [RunBehavior.succeeds [⟨"http://a", "t", "c", none, 0, none, false⟩],
        RunBehavior.raises "boom", RunBehavior.succeeds []][j]? =
          some (RunBehavior.succeeds arts) →
      (orchestrate
        [RunBehavior.succeeds [⟨"http://a", "t", "c", none, 0, none, false⟩],
          RunBehavior.raises "boom", RunBehavior.succeeds []]
        [[], [], []]).1[j]? = some ⟨true, true, true⟩ ∧
      (orchestrate
        [RunBehavior.succeeds [⟨"http://a", "t", "c", none, 0, none, false⟩],
          RunBehavior.raises "boom", RunBehavior.succeeds []]
        [[], [], []]).2[j]? =
        [([] : List StoredDoc), [], []][j]?.map
          (fun c => (save_articles (some c) arts).1.getD c)) :=
  orchestrate_isolates_failure
    [RunBehavior.succeeds [⟨"http://a", "t", "c", none, 0, none, false⟩],
      RunBehavior.raises "boom", RunBehavior.succeeds []]
    [[], [], []] 1 "boom" rfl rfl

/-! Alerting lemmas. -/

theorem alertTriggered_iff (th : AlertThresholds) (r : AnalysisResult) :
    alertTriggered th r = true ↔
      r.errorMsg = none ∧
      (r.analysis_structured.map (fun s => s.importance_score)).getD 0 ≥
        th.importance_threshold ∧
      ((r.analysis_structured.map (fun s => s.sentiment_score)).getD 0 ≥
          th.positive_sentiment_threshold ∨
        (r.analysis_structured.map (fun s => s.sentiment_score)).getD 0 ≤
          th.negative_sentiment_threshold) := by
  unfold alertTriggered
  cases herr : r.errorMsg <;>
    simp [herr, Bool.and_eq_true, Bool.or_eq_true, decide_eq_true_iff]

/-- C8: with an initialized email service, `check_alerts_and_send_emails`
with the analyzer's thresholds sends exactly one digest email iff some result
without an error key has importance at least 7 and sentiment at least 8 or at
most 3; otherwise it sends none, and error results never contribute. -/
theorem check_alerts_one_digest_iff (results : List AnalysisResult)
    (serviceUp : Bool) (hs : serviceUp = true) :
    (check_alerts_and_send_emails serviceUp results ALERT_THRESHOLDS = 1 ↔
      ∃ r ∈ results, r.errorMsg = none ∧
        (r.analysis_structured.map (fun s => s.importance_score)).getD 0 ≥ 7 ∧
        ((r.analysis_structured.map (fun s => s.sentiment_score)).getD 0 ≥ 8 ∨
          (r.analysis_structured.map (fun s => s.sentiment_score)).getD 0 ≤ 3)) ∧
    (check_alerts_and_send_emails serviceUp results ALERT_THRESHOLDS = 0 ↔
      ∀ r ∈ results, ¬(r.errorMsg = none ∧
        (r.analysis_structured.map (fun s => s.importance_score)).getD 0 ≥ 7 ∧
        ((r.analysis_structured.map (fun s => s.sentiment_score)).getD 0 ≥ 8 ∨
          (r.analysis_structured.map (fun s => s.sentiment_score)).getD 0 ≤ 3))) := by
  subst hs
  unfold check_alerts_and_send_emails
  have hempty : (results.filter (alertTriggered ALERT_THRESHOLDS)).isEmpty = true ↔
      ∀ r ∈ results, ¬(r.errorMsg = none ∧
        (r.analysis_structured.map (fun s => s.importance_score)).getD 0 ≥ 7 ∧
        ((r.analysis_structured.map (fun s => s.sentiment_score)).getD 0 ≥ 8 ∨
          (r.analysis_structured.map (fun s => s.sentiment_score)).getD 0 ≤ 3)) := by
    rw [List.isEmpty_iff, List.filter_eq_nil_iff]
    constructor
    · intro h r hr hP
      exact h r hr ((alertTriggered_iff ALERT_THRESHOLDS r).mpr hP)
    · intro h r hr htrig
      exact h r hr ((alertTriggered_iff ALERT_THRESHOLDS r).mp htrig)
  by_cases hl : (results.filter (alertTriggered ALERT_THRESHOLDS)).isEmpty = true
  · simp only [hl, Bool.false_eq_true, if_false, if_true]
    constructor
    · constructor
      · intro h; simp at h
      · intro hex
        obtain ⟨r, hr, hP⟩ := hex
        exact absurd hP (hempty.mp hl r hr)
    · constructor
      · intro _; exact hempty.mp hl
      · intro _; rfl
  · have hl' : (results.filter (alertTriggered ALERT_THRESHOLDS)).isEmpty = false := by
      cases hb : (results.filter (alertTriggered ALERT_THRESHOLDS)).isEmpty
      · rfl
      · exact absurd hb hl
    obtain ⟨r, hrmem⟩ :=
      List.exists_mem_of_ne_nil _ (List.isEmpty_eq_false.mp hl')
    have hrres := List.mem_filter.mp hrmem
    simp only [hl', Bool.false_eq_true, if_false, if_true]
    constructor
    · constructor
      · intro _
        exact ⟨r, hrres.1, (alertTriggered_iff ALERT_THRESHOLDS r).mp hrres.2⟩
      · intro _; rfl
    · constructor
      · intro h; simp at h
      · intro hall
        exact absurd ((alertTriggered_iff ALERT_THRESHOLDS r).mp hrres.2)
          (hall r hrres.1)

def alertDetailsC8 : AnalysisDetails :=
  { importance_score := 8
    sectors := []
    sentiment_score := 2
    analysis_summary := "s" }

def alertResultC8 : AnalysisResult :=
  { article_id := 7
    analysis_raw := "raw"
    analysis_structured := some alertDetailsC8
    errorMsg := none
    analyzed_at := 0 }

/-- C8 witness: a single high-importance negative-sentiment result triggers
exactly one digest email. -/
theorem check_alerts_one_digest_iff_witness :
    check_alerts_and_send_emails true [alertResultC8] ALERT_THRESHOLDS = 1 :=
  (check_alerts_one_digest_iff [alertResultC8] true rfl).1.mpr
    ⟨alertResultC8, by simp, rfl, by decide, Or.inr (by decide)⟩

/-! Run-loop deduplication lemmas. -/

theorem runLoop_nodup_aux (existsInDb : String → Bool)
    (fetchContent : String → Option String) (t : Int) :
    ∀ (items : List NewsItem) (processed : List String),
      (runLoop existsInDb fetchContent t items processed).1.Nodup ∧
      (∀ u ∈ (runLoop existsInDb fetchContent t items processed).1,
        u ∉ processed) ∧
      ((runLoop existsInDb fetchContent t items processed).2.map
        (fun a => a.url)).Sublist
        (runLoop existsInDb fetchContent t items processed).1 := by
  intro items
  induction items with
  | nil => intro processed; simp [runLoop]
  | cons item rest ih =>
    intro processed
    cases hurl : item.itemUrl with
    | none => simpa [runLoop, hurl] using ih processed
    | some u =>
      by_cases hdb : existsInDb u = true
      · simpa [runLoop, hurl, hdb] using ih processed
      · by_cases hproc : u ∈ processed
        · simpa [runLoop, hurl, hdb, hproc] using ih processed
        · obtain ⟨ihnd, ihnotin, ihsub⟩ := ih (u :: processed)
          have hu_not : u ∉ (runLoop existsInDb fetchContent t rest
              (u :: processed)).1 := by
            intro hmem
            exact (ihnotin u hmem) (List.mem_cons_self u processed)
          have hall : ∀ v ∈ u :: (runLoop existsInDb fetchContent t rest
              (u :: processed)).1, v ∉ processed := by
            intro v hv
            rcases List.mem_cons.mp hv with hv | hv
            · rw [hv]; exact hproc
            · intro hvp
              exact (ihnotin v hv) (List.mem_cons_of_mem u hvp)
          cases hf : fetchContent u with
          | some content =>
            refine ⟨?_, ?_, ?_⟩ <;>
              simp only [runLoop, hurl, hdb, hproc, hf, if_neg, ite_false]
            · simp [runLoop, hurl, hdb, hproc, hf, List.nodup_cons]
              exact ⟨hu_not, ihnd⟩
            · simpa [runLoop, hurl, hdb, hproc, hf] using hall
            · simp [runLoop, hurl, hdb, hproc, hf, mkArticle]
              exact ihsub
          | none =>
            refine ⟨?_, ?_, ?_⟩
            · simp [runLoop, hurl, hdb, hproc, hf, List.nodup_cons]
              exact ⟨hu_not, ihnd⟩
            · simpa [runLoop, hurl, hdb, hproc, hf] using hall
            · simp [runLoop, hurl, hdb, hproc, hf]
              exact List.Sublist.cons u ihsub

/-- C9: within a single `run` invocation, each distinct url is content-fetched
at most once and contributes at most one article to the batch handed to
`save_articles`, even when `fetch_news_list` repeats urls: both the fetch log
and the batch's url projection are duplicate-free. -/
theorem run_fetches_each_url_at_most_once (existsInDb : String → Bool)
    (fetchContent : String → Option String) (t : Int) (items : List NewsItem) :
    (runLoop existsInDb fetchContent t items []).1.Nodup ∧
    ((runLoop existsInDb fetchContent t items []).2.map
      (fun a => a.url)).Nodup := by
  obtain ⟨h1, _, h3⟩ := runLoop_nodup_aux existsInDb fetchContent t items []
  exact ⟨h1, h1.sublist h3⟩

/-- C10: `save_articles` called with an uninitialized collection handle, or
with an empty article list, returns normally, performs zero storage write
operations, and leaves the collection unchanged. -/
theorem save_articles_noop (articles : List Article) (c : List StoredDoc) :
    save_articles none articles = (none, 0) ∧
    save_articles (some c) [] = (some c, 0) :=
  ⟨rfl, rfl⟩

/-! ## LLM response parsing (src/news_analyzer.py, extract_analysis_details)

The tolerant labeled-section extraction is embedded over `List Char`. Regex
search is modelled explicitly: a case-insensitive literal match at each
position, scanning left to right (leftmost match), with whitespace runs
greedy and digit runs nonempty and greedy. -/

/-- The characters matched by the whitespace class (ASCII): space, tab,
newline, carriage return, vertical tab, form feed. -/
def pyWhitespace (c : Char) : Bool :=
  c == ' ' || c == '\t' || c == '\n' || c == '\r' ||
    c == Char.ofNat 11 || c == Char.ofNat 12

/-- The characters matched by the digit class (ASCII). -/
def digitChars : List Char := "0123456789".data

/-- Value of a digit run, as computed by Python's `int`. -/
def digitsToNat (ds : List Char) : Nat :=
  ds.foldl (fun acc c => acc * 10 + (c.toNat - 48)) 0

/-- Case-insensitive literal match of a pattern against the head of the text;
on success returns the rest of the text. -/
def matchCI : List Char → List Char → Option (List Char)
  | [], s => some s
  | _ :: _, [] => none
  | p :: ps, c :: cs =>
    if p.toLower = c.toLower then matchCI ps cs else none

/-- Searching for label-then-whitespace-then-digits: scan for the first
position where the label matches case-insensitively and is followed (after
whitespace) by at least one digit; return the value of the digit run. -/
def searchScore (label : List Char) : List Char → Option Nat
  | [] => none
  | c :: cs =>
    match matchCI label (c :: cs) with
    | some rest =>
      let ds := (rest.dropWhile pyWhitespace).takeWhile Char.isDigit
      if ds.isEmpty then searchScore label cs else some (digitsToNat ds)
    | none => searchScore label cs

/-- Leftmost case-insensitive occurrence of a pattern: returns the text
before the occurrence and the text after it. -/
def splitAtSubCI (pat : List Char) : List Char → Option (List Char × List Char)
  | [] =>
    match matchCI pat [] with
    | some r => some ([], r)
    | none => none
  | c :: cs =>
    match matchCI pat (c :: cs) with
    | some rest => some ([], rest)
    | none =>
      match splitAtSubCI pat cs with
      | some (pre, post) => some (c :: pre, post)
      | none => none

/-- Python's `str.strip()` over the whitespace class. -/
def stripChars (s : List Char) : List Char :=
  ((s.dropWhile pyWhitespace).reverse.dropWhile pyWhitespace).reverse

/-- One attempted match of the sector-line pattern at a line-start position:
greedy whitespace, a dash, greedy whitespace, then a capture up to the next
newline. Returns the capture and the unconsumed rest on success. -/
def trySectorItem (s : List Char) : Option (List Char × List Char) :=
  match s.dropWhile pyWhitespace with
  | c :: rest2 =>
    if c = '-' then
      let rest3 := rest2.dropWhile pyWhitespace
      some (rest3.takeWhile (fun x => x ≠ '\n'),
        rest3.dropWhile (fun x => x ≠ '\n'))
    else none
  | [] => none

theorem dropWhile_length_le (p : Char → Bool) (l : List Char) :
    (l.dropWhile p).length ≤ l.length :=
  (List.dropWhile_suffix p).sublist.length_le

theorem trySectorItem_length {s item rest : List Char}
    (h : trySectorItem s = some (item, rest)) : rest.length < s.length := by
  unfold trySectorItem at h
  split at h
  next c rest2 heq =>
    split at h
    · have hr : rest = (rest2.dropWhile pyWhitespace).dropWhile
          (fun x => x ≠ '\n') := by
        injection h with h2
        exact (congrArg Prod.snd h2).symm
      have h1 : ((rest2.dropWhile pyWhitespace).dropWhile
          (fun x => x ≠ '\n')).length ≤ rest2.length :=
        le_trans (dropWhile_length_le _ _) (dropWhile_length_le _ _)
      have h4 : rest2.length < (s.dropWhile pyWhitespace).length := by
        rw [heq]; simp
      have h3 : (s.dropWhile pyWhitespace).length ≤ s.length :=
        dropWhile_length_le _ _
      rw [hr]
      omega
    · exact absurd h (by simp)
  next heq => exact absurd h (by simp)

/-- Finding all sector lines: scan positions left to right, attempting a
match only where a line starts (start of text, or just after a newline); on a
match, capture and resume after the consumed text. The scan consumes at least
one character per step, so it is written with a fuel bound of
`s.length + 1`, which `scanSectorsF_fuel` below shows is never reached. -/
def scanSectorsF : Nat → List Char → Bool → List (List Char)
  | 0, _, _ => []
  | _ + 1, [], _ => []
  | fuel + 1, c :: cs, lineStart =>
    if lineStart then
      match trySectorItem (c :: cs) with
      | some (item, rest) => item :: scanSectorsF fuel rest false
      | none => scanSectorsF fuel cs (c == '\n')
    else scanSectorsF fuel cs (c == '\n')

def scanSectors (s : List Char) (lineStart : Bool) : List (List Char) :=
  scanSectorsF (s.length + 1) s lineStart

/-- The result does not depend on the fuel once it exceeds the text length:
every scanning step consumes at least one character. -/
theorem scanSectorsF_fuel :
    ∀ (f1 f2 : Nat) (s : List Char) (b : Bool), s.length < f1 →
      s.length < f2 → scanSectorsF f1 s b = scanSectorsF f2 s b := by
  intro f1
  induction f1 with
  | zero => intro f2 s b h1 _; omega
  | succ n1 ih =>
    intro f2 s b h1 h2
    cases f2 with
    | zero => omega
    | succ n2 =>
      cases s with
      | nil => rfl
      | cons c cs =>
        have hcc : (c :: cs).length = cs.length + 1 := by simp
        rw [scanSectorsF, scanSectorsF]
        by_cases hb : b = true
        · rw [if_pos hb, if_pos hb]
          cases htry : trySectorItem (c :: cs) with
          | some pr =>
            obtain ⟨item, rest⟩ := pr
            have hlen := trySectorItem_length htry
            show item :: scanSectorsF n1 rest false =
              item :: scanSectorsF n2 rest false
            rw [ih n2 rest false (by omega) (by omega)]
          | none =>
            show scanSectorsF n1 cs (c == '\n') = scanSectorsF n2 cs (c == '\n')
            exact ih n2 cs (c == '\n') (by omega) (by omega)
        · rw [if_neg hb, if_neg hb]
          exact ih n2 cs (c == '\n') (by omega) (by omega)

theorem scanSectors_cons_some (c : Char) (cs item rest : List Char)
    (h : trySectorItem (c :: cs) = some (item, rest)) :
    scanSectors (c :: cs) true = item :: scanSectors rest false := by
  have hlen := trySectorItem_length h
  unfold scanSectors
  rw [scanSectorsF, if_pos rfl, h]
  show item :: scanSectorsF (c :: cs).length rest false =
    item :: scanSectorsF (rest.length + 1) rest false
  exact congrArg (fun l => item :: l)
    (scanSectorsF_fuel _ _ rest false hlen (by omega))

theorem scanSectors_cons_none (c : Char) (cs : List Char)
    (h : trySectorItem (c :: cs) = none) :
    scanSectors (c :: cs) true = scanSectors cs (c == '\n') := by
  unfold scanSectors
  rw [scanSectorsF, if_pos rfl, h]
  show scanSectorsF (c :: cs).length cs (c == '\n') =
    scanSectorsF (cs.length + 1) cs (c == '\n')
  exact scanSectorsF_fuel _ _ cs (c == '\n') (by simp) (by omega)

theorem scanSectors_cons_false (c : Char) (cs : List Char) :
    scanSectors (c :: cs) false = scanSectors cs (c == '\n') := by
  unfold scanSectors
  rw [scanSectorsF, if_neg (by simp : ¬(false = true))]
  show scanSectorsF (c :: cs).length cs (c == '\n') =
    scanSectorsF (cs.length + 1) cs (c == '\n')
  exact scanSectorsF_fuel _ _ cs (c == '\n') (by simp) (by omega)

/-- The labels searched by `extract_analysis_details`. -/
def importanceLabel : List Char := "Importance_Score:".data
def sentimentLabel : List Char := "Sentiment_Score:".data
def sectorsStartLabel : List Char := "Affected_Sectors_Start".data
def sectorsEndLabel : List Char := "Affected_Sectors_End".data
def summaryLabel : List Char := "Analysis_Summary:".data

/-- `extract_analysis_details` over the character list of the response. An
empty response short-circuits to the defaults; otherwise the four sections
are extracted independently, each defaulting when its pattern is absent. The
sector block is the text between the leftmost `Affected_Sectors_Start` and
the first `Affected_Sectors_End` after it. -/
def extractDetailsL (s : List Char) : AnalysisDetails :=
  if s.isEmpty then defaultDetails
  else
    { importance_score := (searchScore importanceLabel s).getD 0
      sectors :=
        match splitAtSubCI sectorsStartLabel s with
        | some (_, afterStart) =>
          match splitAtSubCI sectorsEndLabel afterStart with
          | some (mid, _) =>
            (scanSectors mid true).map (fun l => String.mk (stripChars l))
          | none => []
        | none => []
      sentiment_score := (searchScore sentimentLabel s).getD 0
      analysis_summary :=
        match splitAtSubCI summaryLabel s with
        | some (_, afterLabel) => String.mk (stripChars afterLabel)
        | none => "" }

/-- `extract_analysis_details` on a response string. -/
def extract_analysis_details (s : String) : AnalysisDetails :=
  extractDetailsL s.data

theorem extract_example_evaluation :
    extract_analysis_details "Importance_Score: 8\nSentiment_Score: 2\nAffected_Sectors_Start\n- Tech: impact\nAffected_Sectors_End\nAnalysis_Summary: text" =
      { importance_score := 8
        sectors := ["Tech: impact"]
        sentiment_score := 2
        analysis_summary := "text" } := by
  decide

theorem extract_empty_evaluation :
    extract_analysis_details "" = defaultDetails := by decide

theorem extract_tolerant_evaluation :
    extract_analysis_details "importance_score:007\nSENTIMENT_SCORE:\n\n 4\nAffected_Sectors_Start\n-\nfoo\nAffected_Sectors_End" =
      { importance_score := 7
        sectors := ["foo"]
        sentiment_score := 4
        analysis_summary := "" } := by
  decide

/-! ### Scanning infrastructure for the well-formed-response theorem

`matchCIMismatch pat s` decides that the match of `pat` at the head of `s`
fails on the characters of `s` alone (so it fails for every continuation);
`allPositionsFail pat pre` checks this at every position of `pre`;
`containsCI pat s` decides whether `pat` matches (entirely) at some position
of `s`; `NoMatchWithin pat pre` is the property that no match of `pat` can
start inside `pre`, whatever text follows. -/

def matchCIMismatch : List Char → List Char → Bool
  | [], _ => false
  | _ :: _, [] => false
  | p :: ps, c :: cs =>
    if p.toLower = c.toLower then matchCIMismatch ps cs else true

def allPositionsFail (pat : List Char) : List Char → Bool
  | [] => true
  | c :: cs => matchCIMismatch pat (c :: cs) && allPositionsFail pat cs

def containsCI (pat : List Char) : List Char → Bool
  | [] => (matchCI pat []).isSome
  | c :: cs => (matchCI pat (c :: cs)).isSome || containsCI pat cs

def NoMatchWithin (pat pre : List Char) : Prop :=
  ∀ t, t <:+ pre → t ≠ [] → ∀ tail, matchCI pat (t ++ tail) = none

theorem matchCIMismatch_spec (pat : List Char) :
    ∀ s, matchCIMismatch pat s = true → ∀ tail, matchCI pat (s ++ tail) = none := by
  induction pat with
  | nil => intro s h tail; simp [matchCIMismatch] at h
  | cons p ps ih =>
    intro s h tail
    cases s with
    | nil => simp [matchCIMismatch] at h
    | cons c cs =>
      by_cases he : p.toLower = c.toLower
      · rw [matchCIMismatch, if_pos he] at h
        rw [List.cons_append, matchCI, if_pos he]
        exact ih cs h tail
      · rw [List.cons_append, matchCI, if_neg he]

theorem allPositionsFail_spec (pat : List Char) :
    ∀ pre, allPositionsFail pat pre = true → NoMatchWithin pat pre := by
  intro pre
  induction pre with
  | nil =>
    intro _ t ht hne _
    exact absurd (List.suffix_nil.mp ht) hne
  | cons c cs ih =>
    intro h t ht hne tail
    rw [allPositionsFail, Bool.and_eq_true] at h
    rcases List.suffix_cons_iff.mp ht with ht | ht
    · rw [ht]
      exact matchCIMismatch_spec pat (c :: cs) h.1 tail
    · exact ih h.2 t ht hne tail

theorem containsCI_suffix (pat : List Char) :
    ∀ s, containsCI pat s = false → ∀ t, t <:+ s → (matchCI pat t).isSome = false := by
  intro s
  induction s with
  | nil =>
    intro h t ht
    rw [List.suffix_nil.mp ht]
    simpa [containsCI] using h
  | cons c cs ih =>
    intro h t ht
    rw [containsCI, Bool.or_eq_false_iff] at h
    rcases List.suffix_cons_iff.mp ht with ht | ht
    · rw [ht]; exact h.1
    · exact ih h.2 t ht

theorem matchCI_blocked (b : Char) :
    ∀ (pat s : List Char), (∀ p ∈ pat, p.toLower ≠ b.toLower) →
      (matchCI pat s).isSome = false →
      ∀ tail, matchCI pat (s ++ b :: tail) = none := by
  intro pat
  induction pat with
  | nil => intro s _ hs _; simp [matchCI] at hs
  | cons p ps ih =>
    intro s hb hs tail
    cases s with
    | nil =>
      rw [List.nil_append, matchCI,
        if_neg (hb p (List.mem_cons_self p ps))]
    | cons c cs =>
      by_cases he : p.toLower = c.toLower
      · rw [matchCI, if_pos he] at hs
        rw [List.cons_append, matchCI, if_pos he]
        exact ih cs (fun q hq => hb q (List.mem_cons_of_mem p hq)) hs tail
      · rw [List.cons_append, matchCI, if_neg he]

theorem noMatchWithin_block (pat : List Char) (b : Char)
    (hb : ∀ p ∈ pat, p.toLower ≠ b.toLower) :
    ∀ item, containsCI pat item = false →
      NoMatchWithin pat (item ++ [b]) := by
  intro item
  induction item with
  | nil =>
    intro h t ht hne tail
    rw [List.nil_append] at ht
    rcases List.suffix_cons_iff.mp ht with ht | ht
    · rw [ht, List.cons_append]
      have h0 : (matchCI pat []).isSome = false := by
        simpa [containsCI] using h
      have hbl := matchCI_blocked b pat [] hb h0 tail
      simpa using hbl
    · exact absurd (List.suffix_nil.mp ht) hne
  | cons c cs ih =>
    intro h t ht hne tail
    rw [containsCI, Bool.or_eq_false_iff] at h
    rw [List.cons_append] at ht
    rcases List.suffix_cons_iff.mp ht with ht | ht
    · rw [ht]
      have hfull : (matchCI pat (c :: cs)).isSome = false := h.1
      have hbl := matchCI_blocked b pat (c :: cs) hb hfull tail
      simpa [List.append_assoc] using hbl
    · exact ih h.2 t ht hne tail

theorem noMatchWithin_append (pat p1 p2 : List Char)
    (h1 : NoMatchWithin pat p1) (h2 : NoMatchWithin pat p2) :
    NoMatchWithin pat (p1 ++ p2) := by
  induction p1 with
  | nil => simpa using h2
  | cons c cs ih =>
    intro t ht hne tail
    rw [List.cons_append] at ht
    rcases List.suffix_cons_iff.mp ht with ht | ht
    · rw [ht]
      have hself : (c :: cs) <:+ (c :: cs) := List.suffix_refl _
      have happ := h1 (c :: cs) hself (by simp) (p2 ++ tail)
      simpa [List.append_assoc] using happ
    · have hcs : NoMatchWithin pat cs := by
        intro u hu hune tl
        exact h1 u (hu.trans (List.suffix_cons c cs)) hune tl
      exact ih hcs t ht hne tail

theorem noMatchWithin_nil (pat : List Char) : NoMatchWithin pat [] := by
  intro t ht hne _
  exact absurd (List.suffix_nil.mp ht) hne

theorem noMatchWithin_join (pat : List Char) (l : List (List Char))
    (h : ∀ x ∈ l, NoMatchWithin pat x) : NoMatchWithin pat l.flatten := by
  induction l with
  | nil => simpa [List.flatten] using noMatchWithin_nil pat
  | cons x xs ih =>
    rw [List.flatten_cons]
    exact noMatchWithin_append pat x xs.flatten (h x (by simp))
      (ih (fun y hy => h y (by simp [hy])))

theorem searchScore_append_skip (pat pre : List Char)
    (h : NoMatchWithin pat pre) :
    ∀ tail, searchScore pat (pre ++ tail) = searchScore pat tail := by
  induction pre with
  | nil => intro tail; rfl
  | cons c cs ih =>
    intro tail
    have hnone : matchCI pat (c :: (cs ++ tail)) = none := by
      have hself := h (c :: cs) (List.suffix_refl _) (by simp) tail
      simpa using hself
    rw [List.cons_append, searchScore]
    rw [hnone]
    have hcs : NoMatchWithin pat cs := by
      intro u hu hune tl
      exact h u (hu.trans (List.suffix_cons c cs)) hune tl
    exact ih hcs tail

theorem splitAtSubCI_append_skip (pat pre : List Char)
    (h : NoMatchWithin pat pre) :
    ∀ tail, splitAtSubCI pat (pre ++ tail) =
      (splitAtSubCI pat tail).map (fun pq => (pre ++ pq.1, pq.2)) := by
  induction pre with
  | nil =>
    intro tail
    cases hsp : splitAtSubCI pat tail with
    | none => simp [hsp]
    | some pq => simp [hsp]
  | cons c cs ih =>
    intro tail
    have hnone : matchCI pat (c :: (cs ++ tail)) = none := by
      have hself := h (c :: cs) (List.suffix_refl _) (by simp) tail
      simpa using hself
    have hcs : NoMatchWithin pat cs := by
      intro u hu hune tl
      exact h u (hu.trans (List.suffix_cons c cs)) hune tl
    rw [List.cons_append, splitAtSubCI, hnone, ih hcs tail]
    cases hsp : splitAtSubCI pat tail with
    | none => simp
    | some pq => simp

theorem matchCI_self_append (pat : List Char) :
    ∀ tail, matchCI pat (pat ++ tail) = some tail := by
  induction pat with
  | nil => intro tail; rfl
  | cons p ps ih =>
    intro tail
    rw [List.cons_append, matchCI, if_pos rfl]
    exact ih tail

theorem splitAtSubCI_self (pat : List Char) (hne : pat ≠ []) (tail : List Char) :
    splitAtSubCI pat (pat ++ tail) = some ([], tail) := by
  cases pat with
  | nil => contradiction
  | cons p ps =>
    rw [List.cons_append, splitAtSubCI]
    rw [show matchCI (p :: ps) (p :: (ps ++ tail)) = some tail from
      matchCI_self_append (p :: ps) tail]

theorem containsCI_append_false (pat pre rest : List Char)
    (h1 : NoMatchWithin pat pre) (h2 : containsCI pat rest = false) :
    containsCI pat (pre ++ rest) = false := by
  induction pre with
  | nil => simpa using h2
  | cons c cs ih =>
    have hnone : matchCI pat (c :: (cs ++ rest)) = none := by
      have hself := h1 (c :: cs) (List.suffix_refl _) (by simp) rest
      simpa using hself
    have hcs : NoMatchWithin pat cs := by
      intro u hu hune tl
      exact h1 u (hu.trans (List.suffix_cons c cs)) hune tl
    rw [List.cons_append, containsCI, hnone]
    simp [ih hcs]

theorem splitAtSubCI_eq_none (pat : List Char) :
    ∀ s, containsCI pat s = false → splitAtSubCI pat s = none := by
  intro s
  induction s with
  | nil =>
    intro h
    rw [splitAtSubCI]
    have h0 : (matchCI pat []).isSome = false := by simpa [containsCI] using h
    cases hm : matchCI pat [] with
    | none => rfl
    | some r => rw [hm] at h0; simp at h0
  | cons c cs ih =>
    intro h
    rw [containsCI, Bool.or_eq_false_iff] at h
    rw [splitAtSubCI]
    cases hm : matchCI pat (c :: cs) with
    | none => rw [ih h.2]
    | some r => rw [hm] at h; simp at h

theorem containsCI_false_of_head (p : Char) (ps : List Char) :
    ∀ xs, (∀ c ∈ xs, p.toLower ≠ c.toLower) →
      containsCI (p :: ps) xs = false := by
  intro xs
  induction xs with
  | nil => intro _; simp [containsCI, matchCI]
  | cons c cs ih =>
    intro h
    rw [containsCI, matchCI, if_neg (h c (by simp))]
    simpa using ih (fun x hx => h x (by simp [hx]))

/-! ### Digit runs, whitespace skipping, stripping -/

theorem takeWhile_append_all {p : Char → Bool} (xs : List Char) (y : Char)
    (ys : List Char) (hxs : ∀ x ∈ xs, p x = true) (hy : p y = false) :
    ((xs ++ y :: ys).takeWhile p) = xs := by
  induction xs with
  | nil => simp [List.takeWhile_cons, hy]
  | cons x xs ih =>
    rw [List.cons_append, List.takeWhile_cons, hxs x (by simp)]
    rw [ih (fun a ha => hxs a (by simp [ha]))]
    simp

theorem dropWhile_append_all {p : Char → Bool} (xs : List Char) (y : Char)
    (ys : List Char) (hxs : ∀ x ∈ xs, p x = true) (hy : p y = false) :
    ((xs ++ y :: ys).dropWhile p) = y :: ys := by
  induction xs with
  | nil => simp [List.dropWhile_cons, hy]
  | cons x xs ih =>
    rw [List.cons_append, List.dropWhile_cons, hxs x (by simp)]
    exact ih (fun a ha => hxs a (by simp [ha]))

theorem dropWhile_cons_pos {p : Char → Bool} (c : Char) (cs : List Char)
    (h : p c = true) : ((c :: cs).dropWhile p) = cs.dropWhile p := by
  simp [List.dropWhile_cons, h]

theorem dropWhile_cons_neg {p : Char → Bool} (c : Char) (cs : List Char)
    (h : p c = false) : ((c :: cs).dropWhile p) = c :: cs := by
  simp [List.dropWhile_cons, h]

theorem digit_not_ws {c : Char} (h : c ∈ digitChars) : pyWhitespace c = false := by
  fin_cases h <;> decide

theorem digit_isDigit {c : Char} (h : c ∈ digitChars) : c.isDigit = true := by
  fin_cases h <;> decide

theorem newline_not_digit : ('\n').isDigit = false := by decide

/-- At a position where the label matches, the score regex consumes the
whitespace and the following digit run. -/
theorem searchScore_self (label : List Char) (hlabel : label ≠ [])
    (ds rest : List Char) (hds : ds ≠ []) (hdig : ∀ c ∈ ds, c ∈ digitChars) :
    searchScore label (label ++ ' ' :: (ds ++ '\n' :: rest)) =
      some (digitsToNat ds) := by
  cases label with
  | nil => contradiction
  | cons l ls =>
    rw [List.cons_append, searchScore]
    rw [show matchCI (l :: ls) (l :: (ls ++ ' ' :: (ds ++ '\n' :: rest))) =
      some (' ' :: (ds ++ '\n' :: rest)) from
      matchCI_self_append (l :: ls) (' ' :: (ds ++ '\n' :: rest))]
    have hdw : ((' ' :: (ds ++ '\n' :: rest)).dropWhile pyWhitespace) =
        ds ++ '\n' :: rest := by
      rw [dropWhile_cons_pos _ _ (by decide)]
      cases ds with
      | nil => exact absurd rfl hds
      | cons d ds2 =>
        rw [List.cons_append]
        exact dropWhile_cons_neg _ _ (digit_not_ws (hdig d (by simp)))
    have hie : ds.isEmpty = false := by
      cases ds with
      | nil => exact absurd rfl hds
      | cons d ds2 => rfl
    show (if ((((' ' :: (ds ++ '\n' :: rest)).dropWhile
          pyWhitespace).takeWhile Char.isDigit).isEmpty = true)
        then searchScore (l :: ls) (ls ++ ' ' :: (ds ++ '\n' :: rest))
        else some (digitsToNat (((' ' :: (ds ++ '\n' :: rest)).dropWhile
          pyWhitespace).takeWhile Char.isDigit))) = some (digitsToNat ds)
    rw [hdw]
    rw [takeWhile_append_all ds '\n' rest
      (fun c hc => digit_isDigit (hdig c hc)) newline_not_digit]
    rw [if_neg (by rw [hie]; exact Bool.false_ne_true)]

theorem stripChars_cons_ws (c : Char) (s : List Char)
    (h : pyWhitespace c = true) : stripChars (c :: s) = stripChars s := by
  unfold stripChars
  rw [dropWhile_cons_pos _ _ h]

theorem stripChars_length_le (s : List Char) :
    (stripChars s).length ≤ (s.dropWhile pyWhitespace).length := by
  unfold stripChars
  rw [List.length_reverse]
  calc ((s.dropWhile pyWhitespace).reverse.dropWhile pyWhitespace).length
      ≤ (s.dropWhile pyWhitespace).reverse.length := dropWhile_length_le _ _
    _ = (s.dropWhile pyWhitespace).length := List.length_reverse _

theorem stripped_head_not_ws (c : Char) (cs : List Char)
    (h : stripChars (c :: cs) = c :: cs) : pyWhitespace c = false := by
  by_contra hws
  rw [Bool.not_eq_false] at hws
  have h1 : (stripChars (c :: cs)).length ≤ cs.length := by
    calc (stripChars (c :: cs)).length
        ≤ ((c :: cs).dropWhile pyWhitespace).length := stripChars_length_le _
      _ = (cs.dropWhile pyWhitespace).length := by rw [dropWhile_cons_pos _ _ hws]
      _ ≤ cs.length := dropWhile_length_le _ _
  rw [h] at h1
  simp at h1

/-! ### Scanning a rendered sector block -/

/-- One sector line of the response format mandated by the analyzer's prompt
template: a dash, a space, the sector text, a newline. -/
def renderItem (i : List Char) : List Char := '-' :: ' ' :: (i ++ ['\n'])

theorem trySectorItem_newline (s : List Char) :
    trySectorItem ('\n' :: s) = trySectorItem s := by
  unfold trySectorItem
  rw [dropWhile_cons_pos _ _ (by decide)]

theorem trySectorItem_renderItem (i : List Char) (rest : List Char)
    (hne : i ≠ []) (hnl : '\n' ∉ i)
    (hhd : ∀ c ∈ i.head?, pyWhitespace c = false) :
    trySectorItem (renderItem i ++ rest) = some (i, '\n' :: rest) := by
  have hshape : renderItem i ++ rest = '-' :: ' ' :: (i ++ '\n' :: rest) := by
    simp [renderItem]
  rw [hshape]
  show some (((i ++ '\n' :: rest).dropWhile pyWhitespace).takeWhile
      (fun x => x ≠ '\n'),
    ((i ++ '\n' :: rest).dropWhile pyWhitespace).dropWhile
      (fun x => x ≠ '\n')) = some (i, '\n' :: rest)
  have hdw3 : ((i ++ '\n' :: rest).dropWhile pyWhitespace) =
      i ++ '\n' :: rest := by
    cases i with
    | nil => exact absurd rfl hne
    | cons d i2 =>
      rw [List.cons_append]
      exact dropWhile_cons_neg _ _ (hhd d (by simp))
  rw [hdw3]
  rw [takeWhile_append_all i '\n' rest
    (fun c hc => by
      simp only [decide_eq_true_iff]
      intro heq
      rw [heq] at hc
      exact hnl hc) (by decide)]
  rw [dropWhile_append_all i '\n' rest
    (fun c hc => by
      simp only [decide_eq_true_iff]
      intro heq
      rw [heq] at hc
      exact hnl hc) (by decide)]

theorem scanSectors_renderItems :
    ∀ (items : List (List Char)),
      (∀ i ∈ items, i ≠ [] ∧ '\n' ∉ i ∧
        ∀ c ∈ i.head?, pyWhitespace c = false) →
      scanSectors ((items.map renderItem).flatten) true = items ∧
      scanSectors ('\n' :: (items.map renderItem).flatten) true = items := by
  intro items
  induction items with
  | nil =>
    intro _
    constructor
    · simp [scanSectors, scanSectorsF]
    · rw [show ((([] : List (List Char)).map renderItem).flatten) = [] by simp]
      rw [scanSectors_cons_none '\n' [] (by decide)]
      simp [scanSectors, scanSectorsF]
  | cons i is ih =>
    intro h
    obtain ⟨hne, hnl, hhd⟩ := h i (by simp)
    have ihs := ih (fun j hj => h j (by simp [hj]))
    have hjoin : ((i :: is).map renderItem).flatten =
        renderItem i ++ (is.map renderItem).flatten := by simp
    have htry : trySectorItem (renderItem i ++ (is.map renderItem).flatten) =
        some (i, '\n' :: (is.map renderItem).flatten) :=
      trySectorItem_renderItem i _ hne hnl hhd
    have hshape : renderItem i ++ (is.map renderItem).flatten =
        '-' :: (' ' :: (i ++ ['\n']) ++ (is.map renderItem).flatten) := by
      simp [renderItem]
    have hstep1 : scanSectors (renderItem i ++ (is.map renderItem).flatten) true =
        i :: scanSectors ('\n' :: (is.map renderItem).flatten) false := by
      rw [hshape] at htry
      rw [hshape]
      exact scanSectors_cons_some '-' _ i _ htry
    have hstep2 : scanSectors ('\n' :: (is.map renderItem).flatten) false =
        scanSectors ((is.map renderItem).flatten) true := by
      rw [scanSectors_cons_false]
      rfl
    constructor
    · rw [hjoin, hstep1, hstep2, ihs.1]
    · rw [hjoin]
      have hstep0 : scanSectors
          ('\n' :: (renderItem i ++ (is.map renderItem).flatten)) true =
          i :: scanSectors ('\n' :: (is.map renderItem).flatten) false := by
        refine scanSectors_cons_some '\n' _ i _ ?_
        rw [trySectorItem_newline]
        exact htry
      rw [hstep0, hstep2, ihs.1]

/-! ### Well-formed responses

The response format mandated by the prompt template in
`analyze_news_article` (src/news_analyzer.py): the four labeled sections in
order, sector lines rendered as dash-space-text. -/

def renderResponse (dsI dsS : List Char) (items : List (List Char))
    (summary : List Char) : List Char :=
  importanceLabel ++ ' ' :: (dsI ++ '\n' ::
    (sentimentLabel ++ ' ' :: (dsS ++ '\n' ::
      (sectorsStartLabel ++ '\n' ::
        ((items.map renderItem).flatten ++
          (sectorsEndLabel ++ '\n' :: (summaryLabel ++ ' ' :: summary)))))))

/-- The same response with the whole `Affected_Sectors` block absent. -/
def renderNoSectors (dsI dsS summary : List Char) : List Char :=
  importanceLabel ++ ' ' :: (dsI ++ '\n' ::
    (sentimentLabel ++ ' ' :: (dsS ++ '\n' ::
      (summaryLabel ++ ' ' :: summary))))

theorem containsCI_digits (p : Char) (ps : List Char)
    (hp : ∀ c ∈ digitChars, p.toLower ≠ c.toLower)
    (ds : List Char) (hds : ∀ c ∈ ds, c ∈ digitChars) :
    containsCI (p :: ps) ds = false :=
  containsCI_false_of_head p ps ds (fun c hc => hp c (hds c hc))

theorem nm_digits_newline (p : Char) (ps : List Char)
    (hp : ∀ c ∈ digitChars, p.toLower ≠ c.toLower)
    (hnl : ∀ q ∈ p :: ps, q.toLower ≠ ('\n').toLower)
    (ds : List Char) (hds : ∀ c ∈ ds, c ∈ digitChars) :
    NoMatchWithin (p :: ps) (ds ++ ['\n']) :=
  noMatchWithin_block (p :: ps) '\n' hnl ds (containsCI_digits p ps hp ds hds)

theorem nm_single (pat : List Char) (b : Char)
    (hb : ∀ p ∈ pat, p.toLower ≠ b.toLower)
    (h0 : containsCI pat [] = false) :
    NoMatchWithin pat [b] := by
  have hbl := noMatchWithin_block pat b hb [] h0
  simpa using hbl

theorem nm_renderItem (pat : List Char)
    (hdash : ∀ p ∈ pat, p.toLower ≠ ('-').toLower)
    (hsp : ∀ p ∈ pat, p.toLower ≠ (' ').toLower)
    (hnl : ∀ p ∈ pat, p.toLower ≠ ('\n').toLower)
    (h0 : containsCI pat [] = false)
    (i : List Char) (hi : containsCI pat i = false) :
    NoMatchWithin pat (renderItem i) := by
  have h1 : NoMatchWithin pat ['-'] := nm_single pat '-' hdash h0
  have h2 : NoMatchWithin pat [' '] := nm_single pat ' ' hsp h0
  have h3 : NoMatchWithin pat (i ++ ['\n']) :=
    noMatchWithin_block pat '\n' hnl i hi
  have h4 : NoMatchWithin pat (['-'] ++ ([' '] ++ (i ++ ['\n']))) :=
    noMatchWithin_append pat _ _ h1 (noMatchWithin_append pat _ _ h2 h3)
  have hshape : (['-'] ++ ([' '] ++ (i ++ ['\n']))) = renderItem i := by
    simp [renderItem]
  rw [hshape] at h4
  exact h4

/-! Per-label character-class facts, each a finite check. -/

theorem sentimentLabel_head_digits :
    ∀ c ∈ digitChars, ('S').toLower ≠ c.toLower := by decide

theorem startLabel_head_digits :
    ∀ c ∈ digitChars, ('A').toLower ≠ c.toLower := by decide

theorem sentimentLabel_no_nl :
    ∀ q ∈ sentimentLabel, q.toLower ≠ ('\n').toLower := by decide

theorem startLabel_no_nl :
    ∀ q ∈ sectorsStartLabel, q.toLower ≠ ('\n').toLower := by decide

theorem endLabel_no_nl :
    ∀ q ∈ sectorsEndLabel, q.toLower ≠ ('\n').toLower := by decide

theorem summaryLabel_no_nl :
    ∀ q ∈ summaryLabel, q.toLower ≠ ('\n').toLower := by decide

theorem endLabel_no_dash :
    ∀ q ∈ sectorsEndLabel, q.toLower ≠ ('-').toLower := by decide

theorem endLabel_no_space :
    ∀ q ∈ sectorsEndLabel, q.toLower ≠ (' ').toLower := by decide

theorem summaryLabel_no_dash :
    ∀ q ∈ summaryLabel, q.toLower ≠ ('-').toLower := by decide

theorem summaryLabel_no_space :
    ∀ q ∈ summaryLabel, q.toLower ≠ (' ').toLower := by decide

theorem sentimentLabel_cons :
    sentimentLabel = 'S' :: "entiment_Score:".data := by decide

theorem startLabel_cons :
    sectorsStartLabel = 'A' :: "ffected_Sectors_Start".data := by decide

theorem summaryLabel_cons :
    summaryLabel = 'A' :: "nalysis_Summary:".data := by decide

theorem endLabel_empty : containsCI sectorsEndLabel [] = false := by decide
theorem summaryLabel_empty : containsCI summaryLabel [] = false := by decide

theorem apf_sent_imp :
    allPositionsFail sentimentLabel "Importance_Score: ".data = true := by decide

theorem apf_start_imp :
    allPositionsFail sectorsStartLabel "Importance_Score: ".data = true := by
  decide

theorem apf_start_sent :
    allPositionsFail sectorsStartLabel "Sentiment_Score: ".data = true := by
  decide

theorem apf_start_sum :
    allPositionsFail sectorsStartLabel "Analysis_Summary: ".data = true := by
  decide

theorem apf_sum_imp :
    allPositionsFail summaryLabel "Importance_Score: ".data = true := by decide

theorem apf_sum_sent :
    allPositionsFail summaryLabel "Sentiment_Score: ".data = true := by decide

theorem apf_sum_start :
    allPositionsFail summaryLabel "Affected_Sectors_Start\n".data = true := by
  decide

theorem apf_sum_end :
    allPositionsFail summaryLabel "Affected_Sectors_End\n".data = true := by
  decide

/-! ### Field extraction from a well-formed response -/

theorem render_importance_generic (dsI rest : List Char)
    (hI : dsI ≠ []) (hdI : ∀ c ∈ dsI, c ∈ digitChars) :
    searchScore importanceLabel
      (importanceLabel ++ ' ' :: (dsI ++ '\n' :: rest)) =
      some (digitsToNat dsI) :=
  searchScore_self importanceLabel (by decide) dsI rest hI hdI

theorem nm_before_sentiment (dsI : List Char)
    (hdI : ∀ c ∈ dsI, c ∈ digitChars) :
    NoMatchWithin sentimentLabel
      ("Importance_Score: ".data ++ (dsI ++ ['\n'])) := by
  refine noMatchWithin_append _ _ _ (allPositionsFail_spec _ _ apf_sent_imp) ?_
  rw [sentimentLabel_cons]
  exact nm_digits_newline 'S' _ sentimentLabel_head_digits
    (by rw [← sentimentLabel_cons]; exact sentimentLabel_no_nl) dsI hdI

theorem render_sentiment_generic (dsI dsS rest : List Char)
    (hdI : ∀ c ∈ dsI, c ∈ digitChars)
    (hS : dsS ≠ []) (hdS : ∀ c ∈ dsS, c ∈ digitChars) :
    searchScore sentimentLabel
      (importanceLabel ++ ' ' :: (dsI ++ '\n' ::
        (sentimentLabel ++ ' ' :: (dsS ++ '\n' :: rest)))) =
      some (digitsToNat dsS) := by
  have hshape : importanceLabel ++ ' ' :: (dsI ++ '\n' ::
      (sentimentLabel ++ ' ' :: (dsS ++ '\n' :: rest))) =
      ("Importance_Score: ".data ++ (dsI ++ ['\n'])) ++
        (sentimentLabel ++ ' ' :: (dsS ++ '\n' :: rest)) := by
    rw [show ("Importance_Score: ".data) = importanceLabel ++ [' '] by decide]
    simp
  rw [hshape, searchScore_append_skip _ _ (nm_before_sentiment dsI hdI)]
  exact searchScore_self sentimentLabel (by decide) dsS rest hS hdS

/-- The prefix before the sector block hides no occurrence of the start
label. -/
theorem nm_before_start (dsI dsS : List Char)
    (hdI : ∀ c ∈ dsI, c ∈ digitChars) (hdS : ∀ c ∈ dsS, c ∈ digitChars) :
    NoMatchWithin sectorsStartLabel
      (("Importance_Score: ".data ++ (dsI ++ ['\n'])) ++
        ("Sentiment_Score: ".data ++ (dsS ++ ['\n']))) := by
  have hd1 : NoMatchWithin sectorsStartLabel (dsI ++ ['\n']) := by
    rw [startLabel_cons]
    exact nm_digits_newline 'A' _ startLabel_head_digits
      (by rw [← startLabel_cons]; exact startLabel_no_nl) dsI hdI
  have hd2 : NoMatchWithin sectorsStartLabel (dsS ++ ['\n']) := by
    rw [startLabel_cons]
    exact nm_digits_newline 'A' _ startLabel_head_digits
      (by rw [← startLabel_cons]; exact startLabel_no_nl) dsS hdS
  exact noMatchWithin_append _ _ _
    (noMatchWithin_append _ _ _ (allPositionsFail_spec _ _ apf_start_imp) hd1)
    (noMatchWithin_append _ _ _ (allPositionsFail_spec _ _ apf_start_sent) hd2)

theorem render_split_start (dsI dsS : List Char) (items : List (List Char))
    (summary : List Char)
    (hdI : ∀ c ∈ dsI, c ∈ digitChars) (hdS : ∀ c ∈ dsS, c ∈ digitChars) :
    ∃ pre, splitAtSubCI sectorsStartLabel
        (renderResponse dsI dsS items summary) =
      some (pre, '\n' :: ((items.map renderItem).flatten ++
        (sectorsEndLabel ++ '\n' :: (summaryLabel ++ ' ' :: summary)))) := by
  have hshape : renderResponse dsI dsS items summary =
      (("Importance_Score: ".data ++ (dsI ++ ['\n'])) ++
        ("Sentiment_Score: ".data ++ (dsS ++ ['\n']))) ++
      (sectorsStartLabel ++ ('\n' :: ((items.map renderItem).flatten ++
        (sectorsEndLabel ++ '\n' :: (summaryLabel ++ ' ' :: summary))))) := by
    unfold renderResponse
    rw [show ("Importance_Score: ".data) = importanceLabel ++ [' '] by decide,
      show ("Sentiment_Score: ".data) = sentimentLabel ++ [' '] by decide]
    simp
  rw [hshape, splitAtSubCI_append_skip _ _ (nm_before_start dsI dsS hdI hdS)]
  rw [splitAtSubCI_self sectorsStartLabel (by decide)]
  exact ⟨_, rfl⟩

theorem render_split_end (items : List (List Char)) (rest : List Char)
    (hitems : ∀ i ∈ items, containsCI sectorsEndLabel i = false) :
    splitAtSubCI sectorsEndLabel
      ('\n' :: ((items.map renderItem).flatten ++ (sectorsEndLabel ++ rest))) =
      some ('\n' :: (items.map renderItem).flatten, rest) := by
  have hj : NoMatchWithin sectorsEndLabel (items.map renderItem).flatten := by
    apply noMatchWithin_join
    intro x hx
    obtain ⟨i, hi, rfl⟩ := List.mem_map.mp hx
    exact nm_renderItem sectorsEndLabel endLabel_no_dash endLabel_no_space
      endLabel_no_nl endLabel_empty i (hitems i hi)
  have hnm : NoMatchWithin sectorsEndLabel
      (['\n'] ++ (items.map renderItem).flatten) :=
    noMatchWithin_append _ _ _
      (nm_single sectorsEndLabel '\n' endLabel_no_nl endLabel_empty) hj
  have hshape : ('\n' :: ((items.map renderItem).flatten ++
      (sectorsEndLabel ++ rest))) =
      (['\n'] ++ (items.map renderItem).flatten) ++
        (sectorsEndLabel ++ rest) := by
    simp
  rw [hshape, splitAtSubCI_append_skip _ _ hnm]
  rw [splitAtSubCI_self sectorsEndLabel (by decide)]
  simp

/-- The whole text before the summary label of a full response hides no
occurrence of the summary label. -/
theorem nm_before_summary (dsI dsS : List Char) (items : List (List Char))
    (hdI : ∀ c ∈ dsI, c ∈ digitChars) (hdS : ∀ c ∈ dsS, c ∈ digitChars)
    (hitems : ∀ i ∈ items, containsCI summaryLabel i = false) :
    NoMatchWithin summaryLabel
      ((("Importance_Score: ".data ++ (dsI ++ ['\n'])) ++
        ("Sentiment_Score: ".data ++ (dsS ++ ['\n']))) ++
       (("Affected_Sectors_Start\n".data ++ (items.map renderItem).flatten) ++
        "Affected_Sectors_End\n".data)) := by
  have hdig1 : NoMatchWithin summaryLabel (dsI ++ ['\n']) := by
    rw [summaryLabel_cons]
    exact nm_digits_newline 'A' _ startLabel_head_digits
      (by rw [← summaryLabel_cons]; exact summaryLabel_no_nl) dsI hdI
  have hdig2 : NoMatchWithin summaryLabel (dsS ++ ['\n']) := by
    rw [summaryLabel_cons]
    exact nm_digits_newline 'A' _ startLabel_head_digits
      (by rw [← summaryLabel_cons]; exact summaryLabel_no_nl) dsS hdS
  have hj : NoMatchWithin summaryLabel (items.map renderItem).flatten := by
    apply noMatchWithin_join
    intro x hx
    obtain ⟨i, hi, rfl⟩ := List.mem_map.mp hx
    exact nm_renderItem summaryLabel summaryLabel_no_dash summaryLabel_no_space
      summaryLabel_no_nl summaryLabel_empty i (hitems i hi)
  exact noMatchWithin_append _ _ _
    (noMatchWithin_append _ _ _
      (noMatchWithin_append _ _ _ (allPositionsFail_spec _ _ apf_sum_imp) hdig1)
      (noMatchWithin_append _ _ _ (allPositionsFail_spec _ _ apf_sum_sent) hdig2))
    (noMatchWithin_append _ _ _
      (noMatchWithin_append _ _ _ (allPositionsFail_spec _ _ apf_sum_start) hj)
      (allPositionsFail_spec _ _ apf_sum_end))

theorem render_split_summary (dsI dsS : List Char) (items : List (List Char))
    (summary : List Char)
    (hdI : ∀ c ∈ dsI, c ∈ digitChars) (hdS : ∀ c ∈ dsS, c ∈ digitChars)
    (hitems : ∀ i ∈ items, containsCI summaryLabel i = false) :
    ∃ pre, splitAtSubCI summaryLabel (renderResponse dsI dsS items summary) =
      some (pre, ' ' :: summary) := by
  have hshape : renderResponse dsI dsS items summary =
      ((("Importance_Score: ".data ++ (dsI ++ ['\n'])) ++
        ("Sentiment_Score: ".data ++ (dsS ++ ['\n']))) ++
       (("Affected_Sectors_Start\n".data ++ (items.map renderItem).flatten) ++
        "Affected_Sectors_End\n".data)) ++
      (summaryLabel ++ (' ' :: summary)) := by
    unfold renderResponse
    rw [show ("Importance_Score: ".data) = importanceLabel ++ [' '] by decide,
      show ("Sentiment_Score: ".data) = sentimentLabel ++ [' '] by decide,
      show ("Affected_Sectors_Start\n".data) =
        sectorsStartLabel ++ ['\n'] by decide,
      show ("Affected_Sectors_End\n".data) =
        sectorsEndLabel ++ ['\n'] by decide]
    simp
  rw [hshape, splitAtSubCI_append_skip _ _
    (nm_before_summary dsI dsS items hdI hdS hitems)]
  rw [splitAtSubCI_self summaryLabel (by decide)]
  exact ⟨_, rfl⟩

/-! ### Assembled extraction theorems for whole responses -/

theorem renderResponse_importance (dsI dsS : List Char)
    (items : List (List Char)) (summary : List Char)
    (hI : dsI ≠ []) (hdI : ∀ c ∈ dsI, c ∈ digitChars) :
    searchScore importanceLabel (renderResponse dsI dsS items summary) =
      some (digitsToNat dsI) := by
  unfold renderResponse
  exact render_importance_generic dsI _ hI hdI

theorem renderResponse_sentiment (dsI dsS : List Char)
    (items : List (List Char)) (summary : List Char)
    (hdI : ∀ c ∈ dsI, c ∈ digitChars)
    (hS : dsS ≠ []) (hdS : ∀ c ∈ dsS, c ∈ digitChars) :
    searchScore sentimentLabel (renderResponse dsI dsS items summary) =
      some (digitsToNat dsS) := by
  unfold renderResponse
  exact render_sentiment_generic dsI dsS _ hdI hS hdS

theorem renderNoSectors_importance (dsI dsS summary : List Char)
    (hI : dsI ≠ []) (hdI : ∀ c ∈ dsI, c ∈ digitChars) :
    searchScore importanceLabel (renderNoSectors dsI dsS summary) =
      some (digitsToNat dsI) := by
  unfold renderNoSectors
  exact render_importance_generic dsI _ hI hdI

theorem renderNoSectors_sentiment (dsI dsS summary : List Char)
    (hdI : ∀ c ∈ dsI, c ∈ digitChars)
    (hS : dsS ≠ []) (hdS : ∀ c ∈ dsS, c ∈ digitChars) :
    searchScore sentimentLabel (renderNoSectors dsI dsS summary) =
      some (digitsToNat dsS) := by
  unfold renderNoSectors
  exact render_sentiment_generic dsI dsS _ hdI hS hdS

theorem renderNoSectors_no_start (dsI dsS summary : List Char)
    (hdI : ∀ c ∈ dsI, c ∈ digitChars) (hdS : ∀ c ∈ dsS, c ∈ digitChars)
    (hsum : containsCI sectorsStartLabel summary = false) :
    splitAtSubCI sectorsStartLabel (renderNoSectors dsI dsS summary) = none := by
  apply splitAtSubCI_eq_none
  have hshape : renderNoSectors dsI dsS summary =
      ((("Importance_Score: ".data ++ (dsI ++ ['\n'])) ++
        ("Sentiment_Score: ".data ++ (dsS ++ ['\n']))) ++
        "Analysis_Summary: ".data) ++ summary := by
    unfold renderNoSectors
    rw [show ("Importance_Score: ".data) = importanceLabel ++ [' '] by decide,
      show ("Sentiment_Score: ".data) = sentimentLabel ++ [' '] by decide,
      show ("Analysis_Summary: ".data) = summaryLabel ++ [' '] by decide]
    simp
  rw [hshape]
  refine containsCI_append_false _ _ _ ?_ hsum
  exact noMatchWithin_append _ _ _ (nm_before_start dsI dsS hdI hdS)
    (allPositionsFail_spec _ _ apf_start_sum)

theorem nm_scores_before_summary (dsI dsS : List Char)
    (hdI : ∀ c ∈ dsI, c ∈ digitChars) (hdS : ∀ c ∈ dsS, c ∈ digitChars) :
    NoMatchWithin summaryLabel
      (("Importance_Score: ".data ++ (dsI ++ ['\n'])) ++
        ("Sentiment_Score: ".data ++ (dsS ++ ['\n']))) := by
  have hdig1 : NoMatchWithin summaryLabel (dsI ++ ['\n']) := by
    rw [summaryLabel_cons]
    exact nm_digits_newline 'A' _ startLabel_head_digits
      (by rw [← summaryLabel_cons]; exact summaryLabel_no_nl) dsI hdI
  have hdig2 : NoMatchWithin summaryLabel (dsS ++ ['\n']) := by
    rw [summaryLabel_cons]
    exact nm_digits_newline 'A' _ startLabel_head_digits
      (by rw [← summaryLabel_cons]; exact summaryLabel_no_nl) dsS hdS
  exact noMatchWithin_append _ _ _
    (noMatchWithin_append _ _ _ (allPositionsFail_spec _ _ apf_sum_imp) hdig1)
    (noMatchWithin_append _ _ _ (allPositionsFail_spec _ _ apf_sum_sent) hdig2)

theorem renderNoSectors_split_summary (dsI dsS summary : List Char)
    (hdI : ∀ c ∈ dsI, c ∈ digitChars) (hdS : ∀ c ∈ dsS, c ∈ digitChars) :
    ∃ pre, splitAtSubCI summaryLabel (renderNoSectors dsI dsS summary) =
      some (pre, ' ' :: summary) := by
  have hshape : renderNoSectors dsI dsS summary =
      (("Importance_Score: ".data ++ (dsI ++ ['\n'])) ++
        ("Sentiment_Score: ".data ++ (dsS ++ ['\n']))) ++
      (summaryLabel ++ (' ' :: summary)) := by
    unfold renderNoSectors
    rw [show ("Importance_Score: ".data) = importanceLabel ++ [' '] by decide,
      show ("Sentiment_Score: ".data) = sentimentLabel ++ [' '] by decide]
    simp
  rw [hshape, splitAtSubCI_append_skip _ _
    (nm_scores_before_summary dsI dsS hdI hdS)]
  rw [splitAtSubCI_self summaryLabel (by decide)]
  exact ⟨_, rfl⟩

theorem renderResponse_ne_nil (dsI dsS : List Char) (items : List (List Char))
    (summary : List Char) : renderResponse dsI dsS items summary ≠ [] := by
  unfold renderResponse
  intro h
  rw [List.append_eq_nil] at h
  exact absurd h.1 (by decide)

theorem renderNoSectors_ne_nil (dsI dsS summary : List Char) :
    renderNoSectors dsI dsS summary ≠ [] := by
  unfold renderNoSectors
  intro h
  rw [List.append_eq_nil] at h
  exact absurd h.1 (by decide)

theorem extractDetailsL_renderResponse (dsI dsS : List Char)
    (items : List (List Char)) (summary : List Char)
    (hI : dsI ≠ []) (hdI : ∀ c ∈ dsI, c ∈ digitChars)
    (hS : dsS ≠ []) (hdS : ∀ c ∈ dsS, c ∈ digitChars)
    (hitems : ∀ i ∈ items, i ≠ [] ∧ stripChars i = i ∧ '\n' ∉ i ∧
      containsCI sectorsEndLabel i = false ∧ containsCI summaryLabel i = false) :
    extractDetailsL (renderResponse dsI dsS items summary) =
      { importance_score := digitsToNat dsI
        sectors := items.map (fun i => String.mk i)
        sentiment_score := digitsToNat dsS
        analysis_summary := String.mk (stripChars summary) } := by
  have hempty : (renderResponse dsI dsS items summary).isEmpty = false :=
    List.isEmpty_eq_false.mpr (renderResponse_ne_nil dsI dsS items summary)
  obtain ⟨p1, hsp1⟩ := render_split_start dsI dsS items summary hdI hdS
  obtain ⟨p2, hsp2⟩ := render_split_summary dsI dsS items summary hdI hdS
    (fun i hi => (hitems i hi).2.2.2.2)
  have hend := render_split_end items
    ('\n' :: (summaryLabel ++ ' ' :: summary))
    (fun i hi => (hitems i hi).2.2.2.1)
  have hyg : ∀ i ∈ items, i ≠ [] ∧ '\n' ∉ i ∧
      ∀ c ∈ i.head?, pyWhitespace c = false := by
    intro i hi
    obtain ⟨hne, hstr, hnl, _, _⟩ := hitems i hi
    refine ⟨hne, hnl, ?_⟩
    intro c hc
    cases i with
    | nil => exact absurd rfl hne
    | cons d ds =>
      have hcd : d = c := by simpa using hc
      rw [← hcd]
      exact stripped_head_not_ws d ds hstr
  have hscan := (scanSectors_renderItems items hyg).2
  rw [extractDetailsL, if_neg (by simp [hempty])]
  rw [renderResponse_importance dsI dsS items summary hI hdI,
    renderResponse_sentiment dsI dsS items summary hdI hS hdS]
  simp only [hsp1, hsp2, hend, hscan, Option.getD_some]
  rw [stripChars_cons_ws ' ' summary (by decide)]
  refine congrArg (fun sec => AnalysisDetails.mk (digitsToNat dsI) sec
    (digitsToNat dsS) (String.mk (stripChars summary))) ?_
  apply List.map_congr_left
  intro i hi
  rw [(hitems i hi).2.1]

theorem extractDetailsL_renderNoSectors (dsI dsS summary : List Char)
    (hI : dsI ≠ []) (hdI : ∀ c ∈ dsI, c ∈ digitChars)
    (hS : dsS ≠ []) (hdS : ∀ c ∈ dsS, c ∈ digitChars)
    (hsum : containsCI sectorsStartLabel summary = false) :
    extractDetailsL (renderNoSectors dsI dsS summary) =
      { importance_score := digitsToNat dsI
        sectors := []
        sentiment_score := digitsToNat dsS
        analysis_summary := String.mk (stripChars summary) } := by
  have hempty : (renderNoSectors dsI dsS summary).isEmpty = false :=
    List.isEmpty_eq_false.mpr (renderNoSectors_ne_nil dsI dsS summary)
  obtain ⟨p2, hsp2⟩ := renderNoSectors_split_summary dsI dsS summary hdI hdS
  rw [extractDetailsL, if_neg (by simp [hempty])]
  rw [renderNoSectors_importance dsI dsS summary hI hdI,
    renderNoSectors_sentiment dsI dsS summary hdI hS hdS]
  simp only [hsp2, renderNoSectors_no_start dsI dsS summary hdI hdS hsum,
    Option.getD_some]
  rw [stripChars_cons_ws ' ' summary (by decide)]

/-- C5: `extract_analysis_details` is total. On any well-formed labeled
response — the format mandated by the prompt template, with digit scores,
stripped newline-free sector lines that do not themselves embed a closing or
summary label, and an arbitrary summary — it extracts all four fields. On a
response missing the `Affected_Sectors` block (whose summary does not embed a
start label) it returns an empty sectors list without failing, the other
fields intact. On the empty input it returns the all-zero defaults. In
particular, the claim's example input yields importance 8, sentiment 2,
sectors `["Tech: impact"]`, summary `"text"`. -/
theorem extract_analysis_details_spec :
    (∀ dsI dsS (items : List (List Char)) summary,
      dsI ≠ [] → (∀ c ∈ dsI, c ∈ digitChars) →
      dsS ≠ [] → (∀ c ∈ dsS, c ∈ digitChars) →
      (∀ i ∈ items, i ≠ [] ∧ stripChars i = i ∧ '\n' ∉ i ∧
        containsCI sectorsEndLabel i = false ∧
        containsCI summaryLabel i = false) →
      extract_analysis_details
          (String.mk (renderResponse dsI dsS items summary)) =
        { importance_score := digitsToNat dsI
          sectors := items.map (fun i => String.mk i)
          sentiment_score := digitsToNat dsS
          analysis_summary := String.mk (stripChars summary) }) ∧
    (∀ dsI dsS summary,
      dsI ≠ [] → (∀ c ∈ dsI, c ∈ digitChars) →
      dsS ≠ [] → (∀ c ∈ dsS, c ∈ digitChars) →
      containsCI sectorsStartLabel summary = false →
      extract_analysis_details (String.mk (renderNoSectors dsI dsS summary)) =
        { importance_score := digitsToNat dsI
          sectors := []
          sentiment_score := digitsToNat dsS
          analysis_summary := String.mk (stripChars summary) }) ∧
    extract_analysis_details "" = defaultDetails ∧
    extract_analysis_details "Importance_Score: 8\nSentiment_Score: 2\nAffected_Sectors_Start\n- Tech: impact\nAffected_Sectors_End\nAnalysis_Summary: text" =
      { importance_score := 8
        sectors := ["Tech: impact"]
        sentiment_score := 2
        analysis_summary := "text" } := by
  refine ⟨?_, ?_, ?_, ?_⟩
  · intro dsI dsS items summary hI hdI hS hdS hitems
    exact extractDetailsL_renderResponse dsI dsS items summary hI hdI hS hdS
      hitems
  · intro dsI dsS summary hI hdI hS hdS hsum
    exact extractDetailsL_renderNoSectors dsI dsS summary hI hdI hS hdS hsum
  · rfl
  · decide

/-- C5 witness: the first component instantiated at the claim's own example
values. -/
theorem extract_analysis_details_spec_witness :
    extract_analysis_details
        (String.mk (renderResponse "8".data "2".data ["Tech: impact".data]
          "text".data)) =
      { importance_score := digitsToNat "8".data
        sectors := ["Tech: impact".data].map (fun i => String.mk i)
        sentiment_score := digitsToNat "2".data
        analysis_summary := String.mk (stripChars "text".data) } :=
  extract_analysis_details_spec.1 "8".data "2".data ["Tech: impact".data]
    "text".data (by decide) (by decide) (by decide) (by decide) (by decide)

end StockNews
